import Mathlib

/-!
Verification of the UniDiffuser sampling pipeline
(ppdiffusers/pipelines/unidiffuser/pipeline_unidiffuser.py and
pipeline_unidiffuser_t.py).

Tensors are modelled as nested lists of rationals: a (B, D) tensor is a
list of B rows, a (B, L, D) tensor a list of B matrices, and a
(B, C, H, W) tensor a list of B channel stacks.  The einops rearrange
calls of the source flatten or unflatten trailing axes in row-major
order, which on nested lists is flattening and chunking.  The external
denoising network, scheduler and random source are abstract parameters:
the network is an arbitrary function from call records to outputs, the
scheduler is a pair (set_timesteps, step) of arbitrary functions, and
every paddle.randn draw is an oracle value supplied as an argument.
-/

namespace UniDiffuser

/-- Tensor of shape (B, D): batch of flat rows. -/
abbrev T2 : Type := List (List ℚ)

/-- Tensor of shape (B, L, D). -/
abbrev T3 : Type := List (List (List ℚ))

/-- Tensor of shape (B, C, H, W). -/
abbrev T4 : Type := List (List (List (List ℚ)))

/-- Splits a flat list into `n` consecutive pieces of width `w`; this is the
row-major unflatten performed by einops.rearrange when the target axis
lengths are `n` and `w`. -/
def chunk {α : Type} : Nat → Nat → List α → List (List α)
  | 0, _, _ => []
  | n + 1, w, xs => xs.take w :: chunk n w (xs.drop w)

/-- Row-major flatten of one (L, D) matrix, einops "L D -> (L D)". -/
def row3Flat (m : List (List ℚ)) : List ℚ := m.flatten

/-- Row-major flatten of one (C, H, W) stack, einops "C H W -> (C H W)". -/
def row4Flat (m : List (List (List ℚ))) : List ℚ := (m.map List.flatten).flatten

/-- Row-major unflatten into an (L, D) matrix, einops "(L D) -> L D". -/
def row3Unflat (L D : Nat) (xs : List ℚ) : List (List ℚ) := chunk L D xs

/-- Row-major unflatten into a (C, H, W) stack, einops "(C H W) -> C H W". -/
def row4Unflat (C H W : Nat) (xs : List ℚ) : List (List (List ℚ)) :=
  (chunk C (H * W) xs).map (chunk H W)

/-- Dimension attributes fixed at pipeline construction time:
vae_scale_factor, num_channels_latents, image_encoder_clip_img_dim,
text_encoder_seq_len, text_encoder_text_dim. -/
structure PipelineConfig where
  vae_scale_factor : Nat
  num_channels_latents : Nat
  image_encoder_clip_img_dim : Nat
  text_encoder_seq_len : Nat
  text_encoder_text_dim : Nat
deriving DecidableEq

/-- Predicate: `t` is a rectangular (B, D) tensor. -/
def Shape2 (B D : Nat) (t : T2) : Prop :=
  t.length = B ∧ ∀ r ∈ t, r.length = D

/-- Predicate: `t` is a rectangular (B, L, D) tensor. -/
def Shape3 (B L D : Nat) (t : T3) : Prop :=
  t.length = B ∧ ∀ m ∈ t, m.length = L ∧ ∀ r ∈ m, r.length = D

/-- Predicate: `t` is a rectangular (B, C, H, W) tensor. -/
def Shape4 (B C H W : Nat) (t : T4) : Prop :=
  t.length = B ∧ ∀ c ∈ t, c.length = C ∧ ∀ m ∈ c, m.length = H ∧ ∀ r ∈ m, r.length = W

instance (B D : Nat) (t : T2) : Decidable (Shape2 B D t) := by
  unfold Shape2; infer_instance

instance (B L D : Nat) (t : T3) : Decidable (Shape3 B L D t) := by
  unfold Shape3; infer_instance

instance (B C H W : Nat) (t : T4) : Decidable (Shape4 B C H W t) := by
  unfold Shape4; infer_instance

/-- UniDiffuserPipeline._split: splits a flattened embedding of shape
(B, C*H*W + clip_img_dim) into tensors of shape (B, C, H, W) and
(B, 1, clip_img_dim).  The paddle split into the two section widths is
modelled by take and drop. -/
def _split (cfg : PipelineConfig) (x : T2) (height width : Nat) : T4 × T3 :=
  let latent_height := height / cfg.vae_scale_factor
  let latent_width := width / cfg.vae_scale_factor
  let img_vae_dim := cfg.num_channels_latents * latent_height * latent_width
  (x.map fun row =>
      row4Unflat cfg.num_channels_latents latent_height latent_width (row.take img_vae_dim),
   x.map fun row =>
      row3Unflat 1 cfg.image_encoder_clip_img_dim
        ((row.drop img_vae_dim).take cfg.image_encoder_clip_img_dim))

/-- UniDiffuserPipeline._combine: flattens a (B, C, H, W) latent image and a
(B, 1, clip_img_dim) CLIP embedding and concatenates them along the
feature axis. -/
def _combine (img_vae : T4) (img_clip : T3) : T2 :=
  List.zipWith (fun v c => row4Flat v ++ row3Flat c) img_vae img_clip

/-- UniDiffuserPipeline._split_joint: splits a flattened embedding of shape
(B, C*H*W + clip_img_dim + seq_len*text_dim) into image-VAE, image-CLIP
and text sub-tensors. -/
def _split_joint (cfg : PipelineConfig) (x : T2) (height width : Nat) : T4 × T3 × T3 :=
  let latent_height := height / cfg.vae_scale_factor
  let latent_width := width / cfg.vae_scale_factor
  let img_vae_dim := cfg.num_channels_latents * latent_height * latent_width
  let text_dim := cfg.text_encoder_seq_len * cfg.text_encoder_text_dim
  (x.map fun row =>
      row4Unflat cfg.num_channels_latents latent_height latent_width (row.take img_vae_dim),
   x.map fun row =>
      row3Unflat 1 cfg.image_encoder_clip_img_dim
        ((row.drop img_vae_dim).take cfg.image_encoder_clip_img_dim),
   x.map fun row =>
      row3Unflat cfg.text_encoder_seq_len cfg.text_encoder_text_dim
        ((row.drop (img_vae_dim + cfg.image_encoder_clip_img_dim)).take text_dim))

/-- UniDiffuserPipeline._combine_joint: flattens the three sub-tensors and
concatenates them along the feature axis in the order image-VAE,
image-CLIP, text. -/
def _combine_joint (img_vae : T4) (img_clip : T3) (text : T3) : T2 :=
  List.zipWith3 (fun v c t => row4Flat v ++ row3Flat c ++ row3Flat t) img_vae img_clip text

theorem chunk_length {α : Type} (n w : Nat) (xs : List α) : (chunk n w xs).length = n := by
  induction n generalizing xs with
  | zero => rfl
  | succ n ih => simp [chunk, ih]

theorem flatten_chunk {α : Type} (n w : Nat) (xs : List α) (h : xs.length = n * w) :
    (chunk n w xs).flatten = xs := by
  induction n generalizing xs with
  | zero =>
    simp only [Nat.zero_mul, List.length_eq_zero] at h
    simp [chunk, h]
  | succ n ih =>
    have hw : w ≤ xs.length := by
      rw [h, Nat.succ_mul]; exact Nat.le_add_left w (n * w)
    have hdrop : (xs.drop w).length = n * w := by
      rw [List.length_drop, h, Nat.succ_mul, Nat.add_sub_cancel]
    simp [chunk, List.flatten_cons, ih (xs.drop w) hdrop, List.take_append_drop]

theorem chunk_flatten {α : Type} (w : Nat) (ls : List (List α))
    (h : ∀ l ∈ ls, l.length = w) : chunk ls.length w ls.flatten = ls := by
  induction ls with
  | nil => rfl
  | cons l rest ih =>
    have hl : l.length = w := h l (List.mem_cons_self l rest)
    have hrest : ∀ l' ∈ rest, l'.length = w := fun l' hm => h l' (List.mem_cons_of_mem l hm)
    simp only [List.length_cons, List.flatten_cons, chunk]
    have h1 : List.take w (l ++ rest.flatten) = l := by
      rw [← hl]; exact List.take_left l rest.flatten
    have h2 : List.drop w (l ++ rest.flatten) = rest.flatten := by
      rw [← hl]; exact List.drop_left l rest.flatten
    rw [h1, h2, ih hrest]

theorem row3Flat_length (L D : Nat) (m : List (List ℚ)) (hL : m.length = L)
    (hD : ∀ r ∈ m, r.length = D) : (row3Flat m).length = L * D := by
  subst hL
  induction m with
  | nil => simp [row3Flat]
  | cons r rest ih =>
    have hr : r.length = D := hD r (List.mem_cons_self r rest)
    have hrest : ∀ r' ∈ rest, r'.length = D := fun r' hm => hD r' (List.mem_cons_of_mem r hm)
    simp only [row3Flat, List.flatten_cons, List.length_append, List.length_cons]
    rw [Nat.succ_mul, Nat.add_comm (rest.length * D) D, hr]
    simpa [row3Flat] using ih hrest

theorem row3_roundtrip (L D : Nat) (m : List (List ℚ)) (hL : m.length = L)
    (hD : ∀ r ∈ m, r.length = D) : row3Unflat L D (row3Flat m) = m := by
  subst hL
  exact chunk_flatten D m hD

theorem row3_flat_unflat (L D : Nat) (xs : List ℚ) (h : xs.length = L * D) :
    row3Flat (row3Unflat L D xs) = xs := by
  exact flatten_chunk L D xs h

theorem row4Flat_length (C H W : Nat) (m : List (List (List ℚ))) (hC : m.length = C)
    (hs : ∀ p ∈ m, p.length = H ∧ ∀ r ∈ p, r.length = W) :
    (row4Flat m).length = C * (H * W) := by
  subst hC
  induction m with
  | nil => simp [row4Flat]
  | cons p rest ih =>
    have hp := hs p (List.mem_cons_self p rest)
    have hrest : ∀ p' ∈ rest, p'.length = H ∧ ∀ r ∈ p', r.length = W :=
      fun p' hm => hs p' (List.mem_cons_of_mem p hm)
    simp only [row4Flat, List.map_cons, List.flatten_cons, List.length_append, List.length_cons]
    rw [Nat.succ_mul, Nat.add_comm (rest.length * (H * W)) (H * W)]
    have hpflat : p.flatten.length = H * W := row3Flat_length H W p hp.1 hp.2
    rw [hpflat]
    simpa [row4Flat] using ih hrest

theorem row4_roundtrip (C H W : Nat) (m : List (List (List ℚ))) (hC : m.length = C)
    (hs : ∀ p ∈ m, p.length = H ∧ ∀ r ∈ p, r.length = W) :
    row4Unflat C H W (row4Flat m) = m := by
  subst hC
  unfold row4Unflat row4Flat
  have hlen : ∀ l ∈ m.map List.flatten, l.length = H * W := by
    intro l hl
    rcases List.mem_map.mp hl with ⟨p, hpm, rfl⟩
    exact row3Flat_length H W p (hs p hpm).1 (hs p hpm).2
  have h1 : chunk m.length (H * W) (m.map List.flatten).flatten = m.map List.flatten := by
    have := chunk_flatten (H * W) (m.map List.flatten) hlen
    simpa using this
  rw [show m.length = (m.map List.flatten).length by simp] at h1 ⊢
  rw [h1, List.map_map]
  have hpt : ∀ p ∈ m, (chunk H W ∘ List.flatten) p = p := by
    intro p hpm
    simp only [Function.comp_apply]
    have h2 := chunk_flatten W p (hs p hpm).2
    rwa [(hs p hpm).1] at h2
  rw [List.map_congr_left hpt]
  simp

theorem row4_flat_unflat (C H W : Nat) (xs : List ℚ) (h : xs.length = C * (H * W)) :
    row4Flat (row4Unflat C H W xs) = xs := by
  unfold row4Flat row4Unflat
  rw [List.map_map]
  have hmem : ∀ l ∈ chunk C (H * W) xs, l.length = H * W := by
    intro l hl
    induction C generalizing xs with
    | zero => simp [chunk] at hl
    | succ n ih =>
      simp only [chunk, List.mem_cons] at hl
      rcases hl with rfl | hl
      · rw [List.length_take, h, Nat.succ_mul]
        exact Nat.min_eq_left (Nat.le_add_left (H * W) (n * (H * W)))
      · exact ih (xs.drop (H * W)) (by rw [List.length_drop, h, Nat.succ_mul, Nat.add_sub_cancel]) hl
  have hlt : ∀ l ∈ chunk C (H * W) xs, (List.flatten ∘ chunk H W) l = l := by
    intro l hl
    exact flatten_chunk H W l (hmem l hl)
  rw [List.map_congr_left hlt, show (fun a : List ℚ => a) = id from rfl, List.map_id]
  exact flatten_chunk C (H * W) xs h

theorem map_self {α : Type} (f : α → α) (l : List α) (h : ∀ a ∈ l, f a = a) :
    l.map f = l := by
  rw [List.map_congr_left h, show (fun a : α => a) = id from rfl, List.map_id]

theorem map_zipWith_fst {α β γ : Type} (f : γ → α) (g : α → β → γ) :
    ∀ (as : List α) (bs : List β), as.length = bs.length →
      (∀ a ∈ as, ∀ b ∈ bs, f (g a b) = a) →
      (List.zipWith g as bs).map f = as := by
  intro as
  induction as with
  | nil => intro bs _ _; simp
  | cons a as ih =>
    intro bs hlen hfg
    cases bs with
    | nil => simp at hlen
    | cons b bs =>
      simp only [List.zipWith_cons_cons, List.map_cons]
      rw [hfg a (List.mem_cons_self a as) b (List.mem_cons_self b bs),
        ih bs (by simpa using hlen)
          (fun a' ha b' hb => hfg a' (List.mem_cons_of_mem a ha) b' (List.mem_cons_of_mem b hb))]

theorem map_zipWith_snd {α β γ : Type} (f : γ → β) (g : α → β → γ) :
    ∀ (as : List α) (bs : List β), as.length = bs.length →
      (∀ a ∈ as, ∀ b ∈ bs, f (g a b) = b) →
      (List.zipWith g as bs).map f = bs := by
  intro as
  induction as with
  | nil =>
    intro bs hlen _
    rw [List.length_nil] at hlen
    have hbs := List.length_eq_zero.mp hlen.symm
    simp [hbs]
  | cons a as ih =>
    intro bs hlen hfg
    cases bs with
    | nil => simp at hlen
    | cons b bs =>
      simp only [List.zipWith_cons_cons, List.map_cons]
      rw [hfg a (List.mem_cons_self a as) b (List.mem_cons_self b bs),
        ih bs (by simpa using hlen)
          (fun a' ha b' hb => hfg a' (List.mem_cons_of_mem a ha) b' (List.mem_cons_of_mem b hb))]

theorem map_zipWith3_fst {α β γ δ : Type} (f : δ → α) (g : α → β → γ → δ) :
    ∀ (as : List α) (bs : List β) (cs : List γ), as.length = bs.length →
      as.length = cs.length →
      (∀ a ∈ as, ∀ b ∈ bs, ∀ c ∈ cs, f (g a b c) = a) →
      (List.zipWith3 g as bs cs).map f = as := by
  intro as
  induction as with
  | nil => intro bs cs _ _ _; simp [List.zipWith3]
  | cons a as ih =>
    intro bs cs hb hc hfg
    cases bs with
    | nil => simp at hb
    | cons b bs =>
      cases cs with
      | nil => simp at hc
      | cons c cs =>
        simp only [List.zipWith3, List.map_cons]
        rw [hfg a (List.mem_cons_self a as) b (List.mem_cons_self b bs)
            c (List.mem_cons_self c cs),
          ih bs cs (by simpa using hb) (by simpa using hc)
            (fun a' ha b' hbm c' hcm => hfg a' (List.mem_cons_of_mem a ha)
              b' (List.mem_cons_of_mem b hbm) c' (List.mem_cons_of_mem c hcm))]

theorem map_zipWith3_snd {α β γ δ : Type} (f : δ → β) (g : α → β → γ → δ) :
    ∀ (as : List α) (bs : List β) (cs : List γ), as.length = bs.length →
      as.length = cs.length →
      (∀ a ∈ as, ∀ b ∈ bs, ∀ c ∈ cs, f (g a b c) = b) →
      (List.zipWith3 g as bs cs).map f = bs := by
  intro as
  induction as with
  | nil =>
    intro bs cs hb _ _
    rw [List.length_nil] at hb
    have hbs := List.length_eq_zero.mp hb.symm
    simp [List.zipWith3, hbs]
  | cons a as ih =>
    intro bs cs hb hc hfg
    cases bs with
    | nil => simp at hb
    | cons b bs =>
      cases cs with
      | nil => simp at hc
      | cons c cs =>
        simp only [List.zipWith3, List.map_cons]
        rw [hfg a (List.mem_cons_self a as) b (List.mem_cons_self b bs)
            c (List.mem_cons_self c cs),
          ih bs cs (by simpa using hb) (by simpa using hc)
            (fun a' ha b' hbm c' hcm => hfg a' (List.mem_cons_of_mem a ha)
              b' (List.mem_cons_of_mem b hbm) c' (List.mem_cons_of_mem c hcm))]

theorem map_zipWith3_trd {α β γ δ : Type} (f : δ → γ) (g : α → β → γ → δ) :
    ∀ (as : List α) (bs : List β) (cs : List γ), as.length = bs.length →
      as.length = cs.length →
      (∀ a ∈ as, ∀ b ∈ bs, ∀ c ∈ cs, f (g a b c) = c) →
      (List.zipWith3 g as bs cs).map f = cs := by
  intro as
  induction as with
  | nil =>
    intro bs cs _ hc _
    rw [List.length_nil] at hc
    have hcs := List.length_eq_zero.mp hc.symm
    cases bs <;> simp [List.zipWith3, hcs]
  | cons a as ih =>
    intro bs cs hb hc hfg
    cases bs with
    | nil => simp at hb
    | cons b bs =>
      cases cs with
      | nil => simp at hc
      | cons c cs =>
        simp only [List.zipWith3, List.map_cons]
        rw [hfg a (List.mem_cons_self a as) b (List.mem_cons_self b bs)
            c (List.mem_cons_self c cs),
          ih bs cs (by simpa using hb) (by simpa using hc)
            (fun a' ha b' hbm c' hcm => hfg a' (List.mem_cons_of_mem a ha)
              b' (List.mem_cons_of_mem b hbm) c' (List.mem_cons_of_mem c hcm))]

theorem zipWith3_maps {α β γ δ ε : Type} (g : β → γ → δ → ε)
    (f1 : α → β) (f2 : α → γ) (f3 : α → δ) :
    ∀ (l : List α), List.zipWith3 g (l.map f1) (l.map f2) (l.map f3) =
      l.map (fun a => g (f1 a) (f2 a) (f3 a)) := by
  intro l
  induction l with
  | nil => rfl
  | cons a l ih => simp [List.zipWith3, ih]

theorem take_app {α : Type} (A B : List α) (n : Nat) (h : A.length = n) :
    (A ++ B).take n = A := by
  subst h; exact List.take_left A B

theorem drop_app {α : Type} (A B : List α) (n : Nat) (h : A.length = n) :
    (A ++ B).drop n = B := by
  subst h; exact List.drop_left A B

/-- C1: Latent packing is a bijection for fixed mode, height and width.  For
every batch of sub-tensors of the per-mode shapes — (B, C, h, w) image-VAE
with C the latent channel count and h, w the height and width divided by
the VAE scale factor, (B, 1, clip_img_dim) image-CLIP, and (B, seq_len,
text_dim) text for joint mode — splitting the combined flat tensor
returns the original sub-tensors elementwise, and combining the split of
any flat tensor of the matching total dimension returns that flat tensor
elementwise, both for the image-pair codec (_combine and _split) and for
the joint codec (_combine_joint and _split_joint). -/
theorem latent_codec_bijection (cfg : PipelineConfig) (height width B : Nat)
    (v : T4) (c : T3) (tx : T3) (x y : T2)
    (hv : Shape4 B cfg.num_channels_latents (height / cfg.vae_scale_factor)
        (width / cfg.vae_scale_factor) v)
    (hc : Shape3 B 1 cfg.image_encoder_clip_img_dim c)
    (ht : Shape3 B cfg.text_encoder_seq_len cfg.text_encoder_text_dim tx)
    (hx : Shape2 B (cfg.num_channels_latents * (height / cfg.vae_scale_factor) *
        (width / cfg.vae_scale_factor) + cfg.image_encoder_clip_img_dim) x)
    (hy : Shape2 B (cfg.num_channels_latents * (height / cfg.vae_scale_factor) *
        (width / cfg.vae_scale_factor) + cfg.image_encoder_clip_img_dim +
        cfg.text_encoder_seq_len * cfg.text_encoder_text_dim) y) :
    _split cfg (_combine v c) height width = (v, c) ∧
    _combine (_split cfg x height width).1 (_split cfg x height width).2 = x ∧
    _split_joint cfg (_combine_joint v c tx) height width = (v, c, tx) ∧
    _combine_joint (_split_joint cfg y height width).1
      (_split_joint cfg y height width).2.1 (_split_joint cfg y height width).2.2 = y := by
  refine ⟨?_, ?_, ?_, ?_⟩
  · simp only [_split, _combine, Prod.mk.injEq]
    constructor
    · apply map_zipWith_fst
      · rw [hv.1, hc.1]
      · intro a ha b hb
        obtain ⟨haC, haHW⟩ := hv.2 a ha
        have hlen : (row4Flat a).length =
            cfg.num_channels_latents *
              ((height / cfg.vae_scale_factor) * (width / cfg.vae_scale_factor)) :=
          row4Flat_length _ _ _ a haC haHW
        rw [take_app _ _ _ (by rw [hlen, Nat.mul_assoc])]
        exact row4_roundtrip _ _ _ a haC haHW
    · apply map_zipWith_snd
      · rw [hv.1, hc.1]
      · intro a ha b hb
        obtain ⟨haC, haHW⟩ := hv.2 a ha
        obtain ⟨hb1, hbD⟩ := hc.2 b hb
        have hlen : (row4Flat a).length =
            cfg.num_channels_latents *
              ((height / cfg.vae_scale_factor) * (width / cfg.vae_scale_factor)) :=
          row4Flat_length _ _ _ a haC haHW
        rw [drop_app _ _ _ (by rw [hlen, Nat.mul_assoc]),
          List.take_of_length_le (le_of_eq (by rw [row3Flat_length 1 _ b hb1 hbD, one_mul]))]
        exact row3_roundtrip 1 _ b hb1 hbD
  · simp only [_split, _combine]
    rw [List.zipWith_map, List.zipWith_same]
    apply map_self
    intro r hr
    have hrl := hx.2 r hr
    have h1 : (r.take (cfg.num_channels_latents * (height / cfg.vae_scale_factor) *
        (width / cfg.vae_scale_factor))).length =
        cfg.num_channels_latents *
          ((height / cfg.vae_scale_factor) * (width / cfg.vae_scale_factor)) := by
      rw [List.length_take, hrl, Nat.min_eq_left (Nat.le_add_right _ _), Nat.mul_assoc]
    have h2 : (r.drop (cfg.num_channels_latents * (height / cfg.vae_scale_factor) *
        (width / cfg.vae_scale_factor))).length = cfg.image_encoder_clip_img_dim := by
      rw [List.length_drop, hrl, Nat.add_sub_cancel_left]
    rw [List.take_of_length_le (le_of_eq h2), row4_flat_unflat _ _ _ _ h1,
      row3_flat_unflat 1 _ _ (by rw [h2, one_mul]), List.take_append_drop]
  · simp only [_split_joint, _combine_joint, Prod.mk.injEq]
    refine ⟨?_, ?_, ?_⟩
    · apply map_zipWith3_fst
      · rw [hv.1, hc.1]
      · rw [hv.1, ht.1]
      · intro a ha b hb t htm
        obtain ⟨haC, haHW⟩ := hv.2 a ha
        have hlen : (row4Flat a).length =
            cfg.num_channels_latents *
              ((height / cfg.vae_scale_factor) * (width / cfg.vae_scale_factor)) :=
          row4Flat_length _ _ _ a haC haHW
        rw [List.append_assoc, take_app _ _ _ (by rw [hlen, Nat.mul_assoc])]
        exact row4_roundtrip _ _ _ a haC haHW
    · apply map_zipWith3_snd
      · rw [hv.1, hc.1]
      · rw [hv.1, ht.1]
      · intro a ha b hb t htm
        obtain ⟨haC, haHW⟩ := hv.2 a ha
        obtain ⟨hb1, hbD⟩ := hc.2 b hb
        have hlen : (row4Flat a).length =
            cfg.num_channels_latents *
              ((height / cfg.vae_scale_factor) * (width / cfg.vae_scale_factor)) :=
          row4Flat_length _ _ _ a haC haHW
        rw [List.append_assoc, drop_app _ _ _ (by rw [hlen, Nat.mul_assoc]),
          take_app _ _ _ (by rw [row3Flat_length 1 _ b hb1 hbD, one_mul])]
        exact row3_roundtrip 1 _ b hb1 hbD
    · apply map_zipWith3_trd
      · rw [hv.1, hc.1]
      · rw [hv.1, ht.1]
      · intro a ha b hb t htm
        obtain ⟨haC, haHW⟩ := hv.2 a ha
        obtain ⟨hb1, hbD⟩ := hc.2 b hb
        obtain ⟨htL, htD⟩ := ht.2 t htm
        have hlen : (row4Flat a).length =
            cfg.num_channels_latents *
              ((height / cfg.vae_scale_factor) * (width / cfg.vae_scale_factor)) :=
          row4Flat_length _ _ _ a haC haHW
        rw [drop_app _ _ _ (by
            rw [List.length_append, hlen, Nat.mul_assoc, row3Flat_length 1 _ b hb1 hbD, one_mul]),
          List.take_of_length_le (le_of_eq (row3Flat_length _ _ t htL htD))]
        exact row3_roundtrip _ _ t htL htD
  · simp only [_split_joint, _combine_joint]
    rw [zipWith3_maps]
    apply map_self
    intro r hr
    have hrl := hy.2 r hr
    have h1 : (r.take (cfg.num_channels_latents * (height / cfg.vae_scale_factor) *
        (width / cfg.vae_scale_factor))).length =
        cfg.num_channels_latents *
          ((height / cfg.vae_scale_factor) * (width / cfg.vae_scale_factor)) := by
      rw [List.length_take, hrl, Nat.min_eq_left (by omega), Nat.mul_assoc]
    have h2 : (r.drop (cfg.num_channels_latents * (height / cfg.vae_scale_factor) *
        (width / cfg.vae_scale_factor))).length = cfg.image_encoder_clip_img_dim +
        cfg.text_encoder_seq_len * cfg.text_encoder_text_dim := by
      rw [List.length_drop, hrl]
      omega
    have h3 : ((r.drop (cfg.num_channels_latents * (height / cfg.vae_scale_factor) *
        (width / cfg.vae_scale_factor))).take cfg.image_encoder_clip_img_dim).length =
        1 * cfg.image_encoder_clip_img_dim := by
      rw [List.length_take, h2, Nat.min_eq_left (Nat.le_add_right _ _), one_mul]
    have h4 : (r.drop (cfg.num_channels_latents * (height / cfg.vae_scale_factor) *
        (width / cfg.vae_scale_factor) + cfg.image_encoder_clip_img_dim)).length =
        cfg.text_encoder_seq_len * cfg.text_encoder_text_dim := by
      rw [List.length_drop, hrl]
      omega
    rw [row4_flat_unflat _ _ _ _ h1, row3_flat_unflat _ _ _ h3,
      List.take_of_length_le (le_of_eq h4), row3_flat_unflat _ _ _ h4,
      ← List.drop_drop, List.append_assoc, List.take_append_drop, List.take_append_drop]

/-- Small concrete pipeline configuration used by the numeric witnesses:
scale factor 2, one latent channel, CLIP dimension 2, text sequence
length 2, text dimension 1. -/
def cfgW : PipelineConfig := ⟨2, 1, 2, 2, 1⟩

/-- Concrete (1, 1, 1, 1) image-VAE latent. -/
def vW : T4 := [[[[3]]]]

/-- Concrete (1, 1, 2) image-CLIP latent. -/
def cW : T3 := [[[4, 5]]]

/-- Concrete (1, 2, 1) text latent. -/
def txW : T3 := [[[6], [7]]]

/-- Concrete (1, 3) flat image-pair latent. -/
def xW : T2 := [[1, 2, 3]]

/-- Concrete (1, 5) flat joint latent. -/
def yW : T2 := [[1, 2, 3, 4, 5]]

/-- Witness for C1: the bijection theorem applied at a concrete small
configuration with height = width = 2 and batch size 1. -/
theorem latent_codec_bijection_witness :
    (Shape4 1 cfgW.num_channels_latents (2 / cfgW.vae_scale_factor)
        (2 / cfgW.vae_scale_factor) vW ∧
      Shape3 1 1 cfgW.image_encoder_clip_img_dim cW ∧
      Shape3 1 cfgW.text_encoder_seq_len cfgW.text_encoder_text_dim txW ∧
      Shape2 1 (cfgW.num_channels_latents * (2 / cfgW.vae_scale_factor) *
        (2 / cfgW.vae_scale_factor) + cfgW.image_encoder_clip_img_dim) xW ∧
      Shape2 1 (cfgW.num_channels_latents * (2 / cfgW.vae_scale_factor) *
        (2 / cfgW.vae_scale_factor) + cfgW.image_encoder_clip_img_dim +
        cfgW.text_encoder_seq_len * cfgW.text_encoder_text_dim) yW) ∧
    (_split cfgW (_combine vW cW) 2 2 = (vW, cW) ∧
      _combine (_split cfgW xW 2 2).1 (_split cfgW xW 2 2).2 = xW ∧
      _split_joint cfgW (_combine_joint vW cW txW) 2 2 = (vW, cW, txW) ∧
      _combine_joint (_split_joint cfgW yW 2 2).1 (_split_joint cfgW yW 2 2).2.1
        (_split_joint cfgW yW 2 2).2.2 = yW) :=
  ⟨⟨by decide, by decide, by decide, by decide, by decide⟩,
    latent_codec_bijection cfgW 2 2 1 vW cW txW xW yW
      (by decide) (by decide) (by decide) (by decide) (by decide)⟩

/-- Generation modes accepted by UniDiffuserPipeline.__call__. -/
inductive Mode where
  | joint
  | t2i
  | i2t
  | t
  | i
  | t2i2t
  | i2t2i
deriving DecidableEq

/-- Working latent of the sampling loop: a flat (B, total_dim) tensor for
the image and joint modes, a (B, seq_len, text_dim) tensor for the text
modes.  The Python variable `latents` holds either, depending on mode. -/
inductive Lat where
  | flat (x : T2)
  | txt (x : T3)
deriving DecidableEq

/-- Argument record of one call to the denoising network
self.unet(img_vae, img_clip, text, t_img, t_text, data_type).  The
timestep and data_type tensors of the source are constant over the
batch, so they are modelled by their scalar values. -/
structure UNetCall where
  img_vae : T4
  img_clip : T3
  text : T3
  t_img : Int
  t_text : Int
  data_type : Int
deriving DecidableEq

/-- Output triple of the denoising network; the network always returns all
three channels. -/
structure UNetOut where
  img_vae_out : T4
  img_clip_out : T3
  text_out : T3
deriving DecidableEq

/-- Elementwise x + g * (x - u) on flat rows, the classifier-free guidance
combination. -/
def guidedR (g : ℚ) (x u : List ℚ) : List ℚ :=
  List.zipWith (fun a b => a + g * (a - b)) x u

/-- Elementwise sum of (B, D) tensors. -/
def add2 (x u : T2) : T2 := List.zipWith (List.zipWith (· + ·)) x u

/-- Elementwise difference of (B, D) tensors. -/
def sub2 (x u : T2) : T2 := List.zipWith (List.zipWith (· - ·)) x u

/-- Scalar multiple of a (B, D) tensor. -/
def smul2 (g : ℚ) (x : T2) : T2 := x.map (List.map (g * ·))

/-- Elementwise sum of (B, L, D) tensors. -/
def add3 (x u : T3) : T3 := List.zipWith add2 x u

/-- Elementwise difference of (B, L, D) tensors. -/
def sub3 (x u : T3) : T3 := List.zipWith sub2 x u

/-- Scalar multiple of a (B, L, D) tensor. -/
def smul3 (g : ℚ) (x : T3) : T3 := x.map (smul2 g)

/-- Guidance combination on (B, D) tensors. -/
def guided2 (g : ℚ) (x u : T2) : T2 := List.zipWith (guidedR g) x u

/-- Guidance combination on (B, L, D) tensors. -/
def guided3 (g : ℚ) (x u : T3) : T3 := List.zipWith (guided2 g) x u

/-- Guidance combination on (B, C, H, W) tensors. -/
def guided4 (g : ℚ) (x u : T4) : T4 := List.zipWith (guided3 g) x u

/-- UniDiffuserPipeline.get_noise_pred, instrumented: along with the
predicted output it returns the list of network call records it made, in
order.  The external network is the abstract function `unet`; the
paddle.randn draws of the unconditioned branches are the oracle
arguments noise_vae, noise_clip and noise_text.  Modes t2i2t and i2t2i
fall through every branch of the source and yield None. -/
def get_noise_pred (cfg : PipelineConfig) (unet : UNetCall → UNetOut)
    (mode : Mode) (latents : Lat) (t : Int) (prompt_embeds : T3)
    (img_vae : T4) (img_clip : T3) (Nsent : Int) (guidance_scale : ℚ)
    (height width : Nat) (data_type : Int)
    (noise_vae : T4) (noise_clip : T3) (noise_text : T3) :
    Option (Lat × List UNetCall) :=
  match mode, latents with
  | Mode.joint, Lat.flat x =>
    let p := _split_joint cfg x height width
    let c1 : UNetCall := ⟨p.1, p.2.1, p.2.2, t, t, data_type⟩
    let o1 := unet c1
    let x_out := _combine_joint o1.img_vae_out o1.img_clip_out o1.text_out
    if guidance_scale = 0 then some (Lat.flat x_out, [c1])
    else
      let c2 : UNetCall := ⟨noise_vae, noise_clip, p.2.2, Nsent, t, data_type⟩
      let o2 := unet c2
      let c3 : UNetCall := ⟨p.1, p.2.1, noise_text, t, Nsent, data_type⟩
      let o3 := unet c3
      let x_out_uncond := _combine_joint o3.img_vae_out o3.img_clip_out o2.text_out
      some (Lat.flat (add2 x_out (smul2 guidance_scale (sub2 x_out x_out_uncond))),
        [c1, c2, c3])
  | Mode.t2i, Lat.flat x =>
    let p := _split cfg x height width
    let c1 : UNetCall := ⟨p.1, p.2, prompt_embeds, t, 0, data_type⟩
    let o1 := unet c1
    let img_out := _combine o1.img_vae_out o1.img_clip_out
    if guidance_scale = 0 then some (Lat.flat img_out, [c1])
    else
      let c2 : UNetCall := ⟨p.1, p.2, noise_text, t, Nsent, data_type⟩
      let o2 := unet c2
      let img_out_uncond := _combine o2.img_vae_out o2.img_clip_out
      some (Lat.flat (add2 img_out (smul2 guidance_scale (sub2 img_out img_out_uncond))),
        [c1, c2])
  | Mode.i2t, Lat.txt x =>
    let c1 : UNetCall := ⟨img_vae, img_clip, x, 0, t, data_type⟩
    let o1 := unet c1
    if guidance_scale = 0 then some (Lat.txt o1.text_out, [c1])
    else
      let c2 : UNetCall := ⟨noise_vae, noise_clip, x, Nsent, t, data_type⟩
      let o2 := unet c2
      some (Lat.txt (add3 o1.text_out
        (smul3 guidance_scale (sub3 o1.text_out o2.text_out))), [c1, c2])
  | Mode.t, Lat.txt x =>
    let c1 : UNetCall := ⟨img_vae, img_clip, x, Nsent, t, data_type⟩
    some (Lat.txt (unet c1).text_out, [c1])
  | Mode.i, Lat.flat x =>
    let p := _split cfg x height width
    let c1 : UNetCall := ⟨p.1, p.2, prompt_embeds, t, Nsent, data_type⟩
    let o1 := unet c1
    some (Lat.flat (_combine o1.img_vae_out o1.img_clip_out), [c1])
  | _, _ => none

/-- C2: in every unconditioned guidance forward pass of get_noise_pred, for
every mode with a conditioning modality (t2i, i2t, joint) and every
scheduled timestep t, the conditioning modality receives the sentinel
timestep Nsent (never the scheduled t) and its content is the fresh
noise oracle value (the paddle.randn draw) instead of the caller
supplied conditioning content, while the target modality keeps timestep
t and its current latent content.  This is read off the full list of
network call records: the second (and for joint the third) entry is the
unconditioned call. -/
theorem uncond_pass_sentinel_noise (cfg : PipelineConfig) (unet : UNetCall → UNetOut)
    (t : Int) (prompt_embeds : T3) (img_vae : T4) (img_clip : T3) (Nsent : Int)
    (g : ℚ) (height width : Nat) (dt : Int) (nv : T4) (nc : T3) (nt : T3)
    (lx : T2) (ltx : T3) (hg : g ≠ 0) :
    (get_noise_pred cfg unet Mode.t2i (Lat.flat lx) t prompt_embeds img_vae img_clip
        Nsent g height width dt nv nc nt).map Prod.snd =
      some [⟨(_split cfg lx height width).1, (_split cfg lx height width).2,
              prompt_embeds, t, 0, dt⟩,
            ⟨(_split cfg lx height width).1, (_split cfg lx height width).2,
              nt, t, Nsent, dt⟩] ∧
    (get_noise_pred cfg unet Mode.i2t (Lat.txt ltx) t prompt_embeds img_vae img_clip
        Nsent g height width dt nv nc nt).map Prod.snd =
      some [⟨img_vae, img_clip, ltx, 0, t, dt⟩,
            ⟨nv, nc, ltx, Nsent, t, dt⟩] ∧
    (get_noise_pred cfg unet Mode.joint (Lat.flat lx) t prompt_embeds img_vae img_clip
        Nsent g height width dt nv nc nt).map Prod.snd =
      some [⟨(_split_joint cfg lx height width).1, (_split_joint cfg lx height width).2.1,
              (_split_joint cfg lx height width).2.2, t, t, dt⟩,
            ⟨nv, nc, (_split_joint cfg lx height width).2.2, Nsent, t, dt⟩,
            ⟨(_split_joint cfg lx height width).1, (_split_joint cfg lx height width).2.1,
              nt, t, Nsent, dt⟩] := by
  refine ⟨?_, ?_, ?_⟩ <;> simp [get_noise_pred, hg]

/-- Network that echoes its latent inputs back as outputs; used as the
deterministic stand-in for the external denoising network in witnesses. -/
def unetW : UNetCall → UNetOut := fun c => ⟨c.img_vae, c.img_clip, c.text⟩

/-- Concrete (1, 1, 1, 1) noise oracle for the image-VAE slot. -/
def nvW : T4 := [[[[9]]]]

/-- Concrete (1, 1, 2) noise oracle for the image-CLIP slot. -/
def ncW : T3 := [[[8, 7]]]

/-- Concrete (1, 2, 1) noise oracle for the text slot. -/
def ntW : T3 := [[[11], [12]]]

/-- Witness for C2: the unconditioned-pass theorem applied at guidance
scale 1 with the echo network and concrete latents. -/
theorem uncond_pass_sentinel_noise_witness :
    (1 : ℚ) ≠ 0 ∧
    ((get_noise_pred cfgW unetW Mode.t2i (Lat.flat yW) 5 txW vW cW
        1000 1 2 2 1 nvW ncW ntW).map Prod.snd =
      some [⟨(_split cfgW yW 2 2).1, (_split cfgW yW 2 2).2, txW, 5, 0, 1⟩,
            ⟨(_split cfgW yW 2 2).1, (_split cfgW yW 2 2).2, ntW, 5, 1000, 1⟩] ∧
    (get_noise_pred cfgW unetW Mode.i2t (Lat.txt txW) 5 txW vW cW
        1000 1 2 2 1 nvW ncW ntW).map Prod.snd =
      some [⟨vW, cW, txW, 0, 5, 1⟩,
            ⟨nvW, ncW, txW, 1000, 5, 1⟩] ∧
    (get_noise_pred cfgW unetW Mode.joint (Lat.flat yW) 5 txW vW cW
        1000 1 2 2 1 nvW ncW ntW).map Prod.snd =
      some [⟨(_split_joint cfgW yW 2 2).1, (_split_joint cfgW yW 2 2).2.1,
              (_split_joint cfgW yW 2 2).2.2, 5, 5, 1⟩,
            ⟨nvW, ncW, (_split_joint cfgW yW 2 2).2.2, 1000, 5, 1⟩,
            ⟨(_split_joint cfgW yW 2 2).1, (_split_joint cfgW yW 2 2).2.1,
              ntW, 5, 1000, 1⟩]) :=
  ⟨by norm_num,
    uncond_pass_sentinel_noise cfgW unetW 5 txW vW cW 1000 1 2 2 1 nvW ncW ntW yW txW
      (by norm_num)⟩

/-- C3: for every handled mode and every input latent of the kind that mode
uses, when guidance_scale is 0 get_noise_pred returns exactly the
conditioned-pass output — the network output subset relevant to the mode
— and makes exactly one network call; no unconditioned pass happens.
The single recorded call is the conditioned one. -/
theorem guidance_zero_single_call (cfg : PipelineConfig) (unet : UNetCall → UNetOut)
    (t : Int) (prompt_embeds : T3) (img_vae : T4) (img_clip : T3) (Nsent : Int)
    (height width : Nat) (dt : Int) (nv : T4) (nc : T3) (nt : T3)
    (lx : T2) (ltx : T3) :
    (get_noise_pred cfg unet Mode.t2i (Lat.flat lx) t prompt_embeds img_vae img_clip
        Nsent 0 height width dt nv nc nt =
      some (Lat.flat (_combine
          (unet ⟨(_split cfg lx height width).1, (_split cfg lx height width).2,
            prompt_embeds, t, 0, dt⟩).img_vae_out
          (unet ⟨(_split cfg lx height width).1, (_split cfg lx height width).2,
            prompt_embeds, t, 0, dt⟩).img_clip_out),
        [⟨(_split cfg lx height width).1, (_split cfg lx height width).2,
            prompt_embeds, t, 0, dt⟩])) ∧
    (get_noise_pred cfg unet Mode.i2t (Lat.txt ltx) t prompt_embeds img_vae img_clip
        Nsent 0 height width dt nv nc nt =
      some (Lat.txt (unet ⟨img_vae, img_clip, ltx, 0, t, dt⟩).text_out,
        [⟨img_vae, img_clip, ltx, 0, t, dt⟩])) ∧
    (get_noise_pred cfg unet Mode.joint (Lat.flat lx) t prompt_embeds img_vae img_clip
        Nsent 0 height width dt nv nc nt =
      some (Lat.flat (_combine_joint
          (unet ⟨(_split_joint cfg lx height width).1, (_split_joint cfg lx height width).2.1,
            (_split_joint cfg lx height width).2.2, t, t, dt⟩).img_vae_out
          (unet ⟨(_split_joint cfg lx height width).1, (_split_joint cfg lx height width).2.1,
            (_split_joint cfg lx height width).2.2, t, t, dt⟩).img_clip_out
          (unet ⟨(_split_joint cfg lx height width).1, (_split_joint cfg lx height width).2.1,
            (_split_joint cfg lx height width).2.2, t, t, dt⟩).text_out),
        [⟨(_split_joint cfg lx height width).1, (_split_joint cfg lx height width).2.1,
            (_split_joint cfg lx height width).2.2, t, t, dt⟩])) ∧
    (get_noise_pred cfg unet Mode.t (Lat.txt ltx) t prompt_embeds img_vae img_clip
        Nsent 0 height width dt nv nc nt =
      some (Lat.txt (unet ⟨img_vae, img_clip, ltx, Nsent, t, dt⟩).text_out,
        [⟨img_vae, img_clip, ltx, Nsent, t, dt⟩])) ∧
    (get_noise_pred cfg unet Mode.i (Lat.flat lx) t prompt_embeds img_vae img_clip
        Nsent 0 height width dt nv nc nt =
      some (Lat.flat (_combine
          (unet ⟨(_split cfg lx height width).1, (_split cfg lx height width).2,
            prompt_embeds, t, Nsent, dt⟩).img_vae_out
          (unet ⟨(_split cfg lx height width).1, (_split cfg lx height width).2,
            prompt_embeds, t, Nsent, dt⟩).img_clip_out),
        [⟨(_split cfg lx height width).1, (_split cfg lx height width).2,
            prompt_embeds, t, Nsent, dt⟩])) := by
  refine ⟨?_, ?_, ?_, ?_, ?_⟩ <;> simp [get_noise_pred]

theorem addsmulR (g : ℚ) : ∀ (x u : List ℚ),
    List.zipWith (· + ·) x ((List.zipWith (· - ·) x u).map (g * ·)) = guidedR g x u := by
  intro x
  induction x with
  | nil => intro u; rfl
  | cons a x ih =>
    intro u
    cases u with
    | nil => rfl
    | cons b u => simp [guidedR, List.zipWith_cons_cons, ih u]

theorem addsmul2 (g : ℚ) : ∀ (x u : T2), add2 x (smul2 g (sub2 x u)) = guided2 g x u := by
  intro x
  induction x with
  | nil => intro u; rfl
  | cons a x ih =>
    intro u
    cases u with
    | nil => rfl
    | cons b u =>
      simp only [add2, sub2, smul2, guided2, List.zipWith_cons_cons, List.map_cons]
      rw [List.cons.injEq]
      constructor
      · exact addsmulR g a b
      · simpa [add2, sub2, smul2, guided2] using ih u

theorem addsmul3 (g : ℚ) : ∀ (x u : T3), add3 x (smul3 g (sub3 x u)) = guided3 g x u := by
  intro x
  induction x with
  | nil => intro u; rfl
  | cons a x ih =>
    intro u
    cases u with
    | nil => rfl
    | cons b u =>
      simp only [add3, sub3, smul3, guided3, List.zipWith_cons_cons, List.map_cons]
      rw [List.cons.injEq]
      constructor
      · exact addsmul2 g a b
      · simpa [add3, sub3, smul3, guided3] using ih u


theorem zipWith_congr_mem {α β γ : Type} (f f2 : α → β → γ) :
    ∀ (as : List α) (bs : List β), (∀ x ∈ as, ∀ y ∈ bs, f x y = f2 x y) →
      List.zipWith f as bs = List.zipWith f2 as bs := by
  intro as
  induction as with
  | nil => intro bs _; simp
  | cons a as ih =>
    intro bs h
    cases bs with
    | nil => simp
    | cons b bs =>
      simp only [List.zipWith_cons_cons]
      rw [h a (List.mem_cons_self a as) b (List.mem_cons_self b bs),
        ih bs (fun x hx y hy => h x (List.mem_cons_of_mem a hx) y (List.mem_cons_of_mem b hy))]

theorem flatten_zipWith_shaped {α β γ : Type} (f : α → β → γ) (w : Nat) :
    ∀ (ls : List (List α)) (ms : List (List β)), ls.length = ms.length →
      (∀ l ∈ ls, l.length = w) → (∀ m ∈ ms, m.length = w) →
      (List.zipWith (List.zipWith f) ls ms).flatten =
        List.zipWith f ls.flatten ms.flatten := by
  intro ls
  induction ls with
  | nil =>
    intro ms hlen _ _
    rw [List.length_nil] at hlen
    have := List.length_eq_zero.mp hlen.symm
    simp [this]
  | cons l ls ih =>
    intro ms hlen hl hm
    cases ms with
    | nil => simp at hlen
    | cons m ms =>
      simp only [List.zipWith_cons_cons, List.flatten_cons]
      rw [ih ms (by simpa using hlen)
          (fun x hx => hl x (List.mem_cons_of_mem l hx))
          (fun x hx => hm x (List.mem_cons_of_mem m hx)),
        List.zipWith_append]
      rw [hl l (List.mem_cons_self l ls), hm m (List.mem_cons_self m ms)]

theorem row3Flat_guided (g : ℚ) (L D : Nat) (p q : List (List ℚ))
    (hp : p.length = L) (hpD : ∀ r ∈ p, r.length = D)
    (hq : q.length = L) (hqD : ∀ r ∈ q, r.length = D) :
    row3Flat (guided2 g p q) = guidedR g (row3Flat p) (row3Flat q) := by
  unfold row3Flat guided2 guidedR
  exact flatten_zipWith_shaped _ D p q (by rw [hp, hq]) hpD hqD

theorem row4Flat_guided (g : ℚ) (C H W : Nat) (a a2 : List (List (List ℚ)))
    (ha : a.length = C) (haS : ∀ p ∈ a, p.length = H ∧ ∀ r ∈ p, r.length = W)
    (ha2 : a2.length = C) (ha2S : ∀ p ∈ a2, p.length = H ∧ ∀ r ∈ p, r.length = W) :
    row4Flat (guided3 g a a2) = guidedR g (row4Flat a) (row4Flat a2) := by
  unfold row4Flat guided3
  rw [List.map_zipWith]
  rw [zipWith_congr_mem _ (fun p q => List.zipWith (fun x y => x + g * (x - y))
      p.flatten q.flatten) a a2 ?hcong]
  case hcong =>
    intro p hp q hq
    have h := row3Flat_guided g H W p q (haS p hp).1 (haS p hp).2 (ha2S q hq).1 (ha2S q hq).2
    simpa [row3Flat, guided2, guidedR] using h
  rw [← List.zipWith_map (List.zipWith (fun x y => x + g * (x - y)))
      List.flatten List.flatten a a2]
  have h1 : ∀ l ∈ a.map List.flatten, l.length = H * W := by
    intro l hl
    rcases List.mem_map.mp hl with ⟨p, hpm, rfl⟩
    exact row3Flat_length H W p (haS p hpm).1 (haS p hpm).2
  have h2 : ∀ l ∈ a2.map List.flatten, l.length = H * W := by
    intro l hl
    rcases List.mem_map.mp hl with ⟨p, hpm, rfl⟩
    exact row3Flat_length H W p (ha2S p hpm).1 (ha2S p hpm).2
  exact flatten_zipWith_shaped _ (H * W) (a.map List.flatten) (a2.map List.flatten)
    (by simp [ha, ha2]) h1 h2


theorem guidedR_joint_row (g : ℚ) (C H W Lb Db Lt Dt : Nat)
    (av1 av2 : List (List (List ℚ))) (bv1 bv2 tv1 tv2 : List (List ℚ))
    (hav1 : av1.length = C) (hav1S : ∀ p ∈ av1, p.length = H ∧ ∀ r ∈ p, r.length = W)
    (hav2 : av2.length = C) (hav2S : ∀ p ∈ av2, p.length = H ∧ ∀ r ∈ p, r.length = W)
    (hbv1 : bv1.length = Lb) (hbv1S : ∀ r ∈ bv1, r.length = Db)
    (hbv2 : bv2.length = Lb) (hbv2S : ∀ r ∈ bv2, r.length = Db)
    (htv1 : tv1.length = Lt) (htv1S : ∀ r ∈ tv1, r.length = Dt)
    (htv2 : tv2.length = Lt) (htv2S : ∀ r ∈ tv2, r.length = Dt) :
    guidedR g (row4Flat av1 ++ row3Flat bv1 ++ row3Flat tv1)
        (row4Flat av2 ++ row3Flat bv2 ++ row3Flat tv2) =
      row4Flat (guided3 g av1 av2) ++ row3Flat (guided2 g bv1 bv2) ++
        row3Flat (guided2 g tv1 tv2) := by
  have hA : (row4Flat av1).length = (row4Flat av2).length := by
    rw [row4Flat_length C H W av1 hav1 hav1S, row4Flat_length C H W av2 hav2 hav2S]
  have hB : (row3Flat bv1).length = (row3Flat bv2).length := by
    rw [row3Flat_length Lb Db bv1 hbv1 hbv1S, row3Flat_length Lb Db bv2 hbv2 hbv2S]
  have hAB : (row4Flat av1 ++ row3Flat bv1).length =
      (row4Flat av2 ++ row3Flat bv2).length := by
    simp [hA, hB]
  unfold guidedR
  rw [List.zipWith_append _ _ _ _ _ hAB, List.zipWith_append _ _ _ _ _ hA]
  rw [show List.zipWith (fun a b => a + g * (a - b)) (row4Flat av1) (row4Flat av2) =
      guidedR g (row4Flat av1) (row4Flat av2) from rfl,
    show List.zipWith (fun a b => a + g * (a - b)) (row3Flat bv1) (row3Flat bv2) =
      guidedR g (row3Flat bv1) (row3Flat bv2) from rfl,
    show List.zipWith (fun a b => a + g * (a - b)) (row3Flat tv1) (row3Flat tv2) =
      guidedR g (row3Flat tv1) (row3Flat tv2) from rfl,
    ← row4Flat_guided g C H W av1 av2 hav1 hav1S hav2 hav2S,
    ← row3Flat_guided g Lb Db bv1 bv2 hbv1 hbv1S hbv2 hbv2S,
    ← row3Flat_guided g Lt Dt tv1 tv2 htv1 htv1S htv2 htv2S]

theorem guided2_combine_joint (g : ℚ) (B C H W Lb Db Lt Dt : Nat) :
    ∀ (a a2 : T4) (b b2 t t2 : T3),
      Shape4 B C H W a → Shape4 B C H W a2 →
      Shape3 B Lb Db b → Shape3 B Lb Db b2 →
      Shape3 B Lt Dt t → Shape3 B Lt Dt t2 →
      guided2 g (_combine_joint a b t) (_combine_joint a2 b2 t2) =
        _combine_joint (guided4 g a a2) (guided3 g b b2) (guided3 g t t2) := by
  induction B with
  | zero =>
    intro a a2 b b2 t t2 ha ha2 hb hb2 ht ht2
    rw [List.length_eq_zero.mp ha.1, List.length_eq_zero.mp ha2.1,
      List.length_eq_zero.mp hb.1, List.length_eq_zero.mp hb2.1,
      List.length_eq_zero.mp ht.1, List.length_eq_zero.mp ht2.1]
    rfl
  | succ n ih =>
    intro a a2 b b2 t t2 ha ha2 hb hb2 ht ht2
    cases a with
    | nil => exact absurd ha.1 (by simp)
    | cons av arest =>
    cases a2 with
    | nil => exact absurd ha2.1 (by simp)
    | cons av2 arest2 =>
    cases b with
    | nil => exact absurd hb.1 (by simp)
    | cons bv brest =>
    cases b2 with
    | nil => exact absurd hb2.1 (by simp)
    | cons bv2 brest2 =>
    cases t with
    | nil => exact absurd ht.1 (by simp)
    | cons tv trest =>
    cases t2 with
    | nil => exact absurd ht2.1 (by simp)
    | cons tv2 trest2 =>
    have harest : Shape4 n C H W arest :=
      ⟨by simpa using ha.1, fun m hm => ha.2 m (List.mem_cons_of_mem av hm)⟩
    have harest2 : Shape4 n C H W arest2 :=
      ⟨by simpa using ha2.1, fun m hm => ha2.2 m (List.mem_cons_of_mem av2 hm)⟩
    have hbrest : Shape3 n Lb Db brest :=
      ⟨by simpa using hb.1, fun m hm => hb.2 m (List.mem_cons_of_mem bv hm)⟩
    have hbrest2 : Shape3 n Lb Db brest2 :=
      ⟨by simpa using hb2.1, fun m hm => hb2.2 m (List.mem_cons_of_mem bv2 hm)⟩
    have htrest : Shape3 n Lt Dt trest :=
      ⟨by simpa using ht.1, fun m hm => ht.2 m (List.mem_cons_of_mem tv hm)⟩
    have htrest2 : Shape3 n Lt Dt trest2 :=
      ⟨by simpa using ht2.1, fun m hm => ht2.2 m (List.mem_cons_of_mem tv2 hm)⟩
    have hhead := guidedR_joint_row g C H W Lb Db Lt Dt av av2 bv bv2 tv tv2
      (ha.2 av (List.mem_cons_self av arest)).1
      (fun p hp => ((ha.2 av (List.mem_cons_self av arest)).2 p hp))
      (ha2.2 av2 (List.mem_cons_self av2 arest2)).1
      (fun p hp => ((ha2.2 av2 (List.mem_cons_self av2 arest2)).2 p hp))
      (hb.2 bv (List.mem_cons_self bv brest)).1
      (hb.2 bv (List.mem_cons_self bv brest)).2
      (hb2.2 bv2 (List.mem_cons_self bv2 brest2)).1
      (hb2.2 bv2 (List.mem_cons_self bv2 brest2)).2
      (ht.2 tv (List.mem_cons_self tv trest)).1
      (ht.2 tv (List.mem_cons_self tv trest)).2
      (ht2.2 tv2 (List.mem_cons_self tv2 trest2)).1
      (ht2.2 tv2 (List.mem_cons_self tv2 trest2)).2
    have hih := ih arest arest2 brest brest2 trest trest2
      harest harest2 hbrest hbrest2 htrest htrest2
    simp only [_combine_joint, List.zipWith3, guided2, guided3, guided4,
      List.zipWith_cons_cons]
    rw [List.cons.injEq]
    constructor
    · exact hhead
    · simpa [_combine_joint, guided2, guided3, guided4] using hih

/-- C4: for every guidance scale g > 0 the output of get_noise_pred equals
xo + g * (xo - xu) applied elementwise to the target modality, where xo
is the conditioned-pass output and xu the unconditioned-pass output; in
joint mode the per-branch guided outputs — the image slices guided by
the pass that forces text to noise, the text slice guided by the pass
that forces the image to noise — merge into one joint output satisfying
the same equation per slice, which the final conjunct states as the
distribution of the guidance combination over _combine_joint for
arbitrary well-shaped slices. -/
theorem guidance_formula (cfg : PipelineConfig) (unet : UNetCall → UNetOut)
    (t : Int) (prompt_embeds : T3) (img_vae : T4) (img_clip : T3) (Nsent : Int)
    (g : ℚ) (height width : Nat) (dt : Int) (nv : T4) (nc : T3) (nt : T3)
    (lx : T2) (ltx : T3) (B C H W Lb Db Lt Dt : Nat)
    (a a2 : T4) (b b2 tt tt2 : T3) (hg : 0 < g)
    (ha : Shape4 B C H W a) (ha2 : Shape4 B C H W a2)
    (hb : Shape3 B Lb Db b) (hb2 : Shape3 B Lb Db b2)
    (htt : Shape3 B Lt Dt tt) (htt2 : Shape3 B Lt Dt tt2) :
    (get_noise_pred cfg unet Mode.t2i (Lat.flat lx) t prompt_embeds img_vae img_clip
        Nsent g height width dt nv nc nt =
      some (Lat.flat (guided2 g
          (_combine
            (unet ⟨(_split cfg lx height width).1, (_split cfg lx height width).2,
              prompt_embeds, t, 0, dt⟩).img_vae_out
            (unet ⟨(_split cfg lx height width).1, (_split cfg lx height width).2,
              prompt_embeds, t, 0, dt⟩).img_clip_out)
          (_combine
            (unet ⟨(_split cfg lx height width).1, (_split cfg lx height width).2,
              nt, t, Nsent, dt⟩).img_vae_out
            (unet ⟨(_split cfg lx height width).1, (_split cfg lx height width).2,
              nt, t, Nsent, dt⟩).img_clip_out)),
        [⟨(_split cfg lx height width).1, (_split cfg lx height width).2,
            prompt_embeds, t, 0, dt⟩,
         ⟨(_split cfg lx height width).1, (_split cfg lx height width).2,
            nt, t, Nsent, dt⟩])) ∧
    (get_noise_pred cfg unet Mode.i2t (Lat.txt ltx) t prompt_embeds img_vae img_clip
        Nsent g height width dt nv nc nt =
      some (Lat.txt (guided3 g
          (unet ⟨img_vae, img_clip, ltx, 0, t, dt⟩).text_out
          (unet ⟨nv, nc, ltx, Nsent, t, dt⟩).text_out),
        [⟨img_vae, img_clip, ltx, 0, t, dt⟩, ⟨nv, nc, ltx, Nsent, t, dt⟩])) ∧
    (get_noise_pred cfg unet Mode.joint (Lat.flat lx) t prompt_embeds img_vae img_clip
        Nsent g height width dt nv nc nt =
      some (Lat.flat (guided2 g
          (_combine_joint
            (unet ⟨(_split_joint cfg lx height width).1,
              (_split_joint cfg lx height width).2.1,
              (_split_joint cfg lx height width).2.2, t, t, dt⟩).img_vae_out
            (unet ⟨(_split_joint cfg lx height width).1,
              (_split_joint cfg lx height width).2.1,
              (_split_joint cfg lx height width).2.2, t, t, dt⟩).img_clip_out
            (unet ⟨(_split_joint cfg lx height width).1,
              (_split_joint cfg lx height width).2.1,
              (_split_joint cfg lx height width).2.2, t, t, dt⟩).text_out)
          (_combine_joint
            (unet ⟨(_split_joint cfg lx height width).1,
              (_split_joint cfg lx height width).2.1, nt, t, Nsent, dt⟩).img_vae_out
            (unet ⟨(_split_joint cfg lx height width).1,
              (_split_joint cfg lx height width).2.1, nt, t, Nsent, dt⟩).img_clip_out
            (unet ⟨nv, nc, (_split_joint cfg lx height width).2.2,
              Nsent, t, dt⟩).text_out)),
        [⟨(_split_joint cfg lx height width).1, (_split_joint cfg lx height width).2.1,
            (_split_joint cfg lx height width).2.2, t, t, dt⟩,
         ⟨nv, nc, (_split_joint cfg lx height width).2.2, Nsent, t, dt⟩,
         ⟨(_split_joint cfg lx height width).1, (_split_joint cfg lx height width).2.1,
            nt, t, Nsent, dt⟩])) ∧
    guided2 g (_combine_joint a b tt) (_combine_joint a2 b2 tt2) =
      _combine_joint (guided4 g a a2) (guided3 g b b2) (guided3 g tt tt2) := by
  refine ⟨?_, ?_, ?_, ?_⟩
  · simp [get_noise_pred, hg.ne.symm, addsmul2 g]
  · simp [get_noise_pred, hg.ne.symm, addsmul3 g]
  · simp [get_noise_pred, hg.ne.symm, addsmul2 g]
  · exact guided2_combine_joint g B C H W Lb Db Lt Dt a a2 b b2 tt tt2
      ha ha2 hb hb2 htt htt2

/-- Witness for C4: the guidance-formula theorem applied at guidance
scale 1 with the echo network and concrete small tensors. -/
theorem guidance_formula_witness :
    ((0 : ℚ) < 1 ∧ Shape4 1 1 1 1 vW ∧ Shape4 1 1 1 1 nvW ∧
      Shape3 1 1 2 cW ∧ Shape3 1 1 2 ncW ∧ Shape3 1 2 1 txW ∧ Shape3 1 2 1 ntW) ∧
    ((get_noise_pred cfgW unetW Mode.t2i (Lat.flat yW) 5 txW vW cW
        1000 1 2 2 1 nvW ncW ntW =
      some (Lat.flat (guided2 1
          (_combine
            (unetW ⟨(_split cfgW yW 2 2).1, (_split cfgW yW 2 2).2,
              txW, 5, 0, 1⟩).img_vae_out
            (unetW ⟨(_split cfgW yW 2 2).1, (_split cfgW yW 2 2).2,
              txW, 5, 0, 1⟩).img_clip_out)
          (_combine
            (unetW ⟨(_split cfgW yW 2 2).1, (_split cfgW yW 2 2).2,
              ntW, 5, 1000, 1⟩).img_vae_out
            (unetW ⟨(_split cfgW yW 2 2).1, (_split cfgW yW 2 2).2,
              ntW, 5, 1000, 1⟩).img_clip_out)),
        [⟨(_split cfgW yW 2 2).1, (_split cfgW yW 2 2).2, txW, 5, 0, 1⟩,
         ⟨(_split cfgW yW 2 2).1, (_split cfgW yW 2 2).2, ntW, 5, 1000, 1⟩])) ∧
    (get_noise_pred cfgW unetW Mode.i2t (Lat.txt txW) 5 txW vW cW
        1000 1 2 2 1 nvW ncW ntW =
      some (Lat.txt (guided3 1
          (unetW ⟨vW, cW, txW, 0, 5, 1⟩).text_out
          (unetW ⟨nvW, ncW, txW, 1000, 5, 1⟩).text_out),
        [⟨vW, cW, txW, 0, 5, 1⟩, ⟨nvW, ncW, txW, 1000, 5, 1⟩])) ∧
    (get_noise_pred cfgW unetW Mode.joint (Lat.flat yW) 5 txW vW cW
        1000 1 2 2 1 nvW ncW ntW =
      some (Lat.flat (guided2 1
          (_combine_joint
            (unetW ⟨(_split_joint cfgW yW 2 2).1, (_split_joint cfgW yW 2 2).2.1,
              (_split_joint cfgW yW 2 2).2.2, 5, 5, 1⟩).img_vae_out
            (unetW ⟨(_split_joint cfgW yW 2 2).1, (_split_joint cfgW yW 2 2).2.1,
              (_split_joint cfgW yW 2 2).2.2, 5, 5, 1⟩).img_clip_out
            (unetW ⟨(_split_joint cfgW yW 2 2).1, (_split_joint cfgW yW 2 2).2.1,
              (_split_joint cfgW yW 2 2).2.2, 5, 5, 1⟩).text_out)
          (_combine_joint
            (unetW ⟨(_split_joint cfgW yW 2 2).1, (_split_joint cfgW yW 2 2).2.1,
              ntW, 5, 1000, 1⟩).img_vae_out
            (unetW ⟨(_split_joint cfgW yW 2 2).1, (_split_joint cfgW yW 2 2).2.1,
              ntW, 5, 1000, 1⟩).img_clip_out
            (unetW ⟨nvW, ncW, (_split_joint cfgW yW 2 2).2.2, 1000, 5, 1⟩).text_out)),
        [⟨(_split_joint cfgW yW 2 2).1, (_split_joint cfgW yW 2 2).2.1,
            (_split_joint cfgW yW 2 2).2.2, 5, 5, 1⟩,
         ⟨nvW, ncW, (_split_joint cfgW yW 2 2).2.2, 1000, 5, 1⟩,
         ⟨(_split_joint cfgW yW 2 2).1, (_split_joint cfgW yW 2 2).2.1,
            ntW, 5, 1000, 1⟩])) ∧
    guided2 1 (_combine_joint vW cW txW) (_combine_joint nvW ncW ntW) =
      _combine_joint (guided4 1 vW nvW) (guided3 1 cW ncW) (guided3 1 txW ntW)) :=
  ⟨⟨by norm_num, by decide, by decide, by decide, by decide, by decide, by decide⟩,
    guidance_formula cfgW unetW 5 txW vW cW 1000 1 2 2 1 nvW ncW ntW yW txW
      1 1 1 1 1 2 2 1 vW nvW cW ncW txW ntW
      (by norm_num) (by decide) (by decide) (by decide) (by decide) (by decide) (by decide)⟩

/-- Kind of a working latent: true for the flat image or joint latent,
false for a text latent. -/
def latKind : Lat → Bool
  | Lat.flat _ => true
  | Lat.txt _ => false

/-- Latent kind that each handled mode feeds through the loop; none for the
compound modes, which never reach get_noise_pred. -/
def modeLatKind : Mode → Option Bool
  | Mode.joint => some true
  | Mode.t2i => some true
  | Mode.i => some true
  | Mode.i2t => some false
  | Mode.t => some false
  | _ => none

/-- Predicate: the working latent has the kind the mode requires. -/
def ModeKindOk (mode : Mode) (st : Lat) : Prop :=
  modeLatKind mode = some (latKind st)

/-- Number of network calls get_noise_pred makes per invocation, by mode and
guidance scale: one conditioned call always, plus one unconditioned call
for t2i and i2t, plus two unconditioned calls for joint, when the
guidance scale is nonzero; the unconditional modes t and i make exactly
one call regardless. -/
def callsPerStep (mode : Mode) (g : ℚ) : Nat :=
  match mode with
  | Mode.joint => if g = 0 then 1 else 3
  | Mode.t2i => if g = 0 then 1 else 2
  | Mode.i2t => if g = 0 then 1 else 2
  | Mode.t => 1
  | Mode.i => 1
  | _ => 0

/-- Length of stable_diffusion_beta_schedule(): its n_timestep default is
1000, so the sentinel N of _denoising_sample_fn is 1000. -/
def schedule_N : Nat := 1000

/-- Abstract external collaborators and fixed data of one denoising-loop
run: the pipeline dimensions, the denoising network, the scheduler
(timestep schedule, step function and order), the per-iteration
randn oracle, and whether a callback was supplied. -/
structure DenoCtx where
  cfg : PipelineConfig
  unet : UNetCall → UNetOut
  set_timesteps : Nat → List Int
  schedStep : Lat → Int → Lat → Lat
  order : Nat
  noise : Nat → T4 × T3 × T3
  hasCallback : Bool

/-- Trace of one denoising loop run: final working latent, every network
call record in order, every callback event (index, timestep, latent
after the scheduler step), and the number of scheduler-step calls. -/
structure LoopTrace where
  latents : Lat
  calls : List UNetCall
  events : List (Nat × Int × Lat)
  stepCount : Nat

/-- Warmup count of the loop: len(timesteps) - num_inference_steps * order,
an Int since it can be negative. -/
def numWarmup (total S order : Nat) : Int := (total : Int) - (S : Int) * (order : Int)

/-- Condition under which the loop body invokes the callback at iteration
i: the progress-display condition (last iteration, or past the warmup
count and i+1 divisible by the scheduler order) nested with the
callback-present and i divisible-by-callback_steps condition. -/
def fireAt (total : Nat) (numWarmup : Int) (order k : Nat) (cb : Bool) (i : Nat) : Bool :=
  ((i == total - 1) || ((numWarmup < (i : Int) + 1) && ((i + 1) % order == 0))) &&
    (cb && (i % k == 0))

/-- Iteration of the denoising loop of _denoising_sample_fn over the
remaining timesteps, carrying the iteration index: predict noise,
advance the latent through the scheduler step, record the callback
event when the source condition holds. -/
def loopGo (ctx : DenoCtx) (mode : Mode) (prompt_embeds : T3) (img_vae : T4)
    (img_clip : T3) (g : ℚ) (height width : Nat) (total : Nat) (numWarmup : Int)
    (k : Nat) : List Int → Nat → Lat → Option LoopTrace
  | [], _, st => some ⟨st, [], [], 0⟩
  | tcur :: ts, i, st =>
    match get_noise_pred ctx.cfg ctx.unet mode st tcur prompt_embeds img_vae img_clip
        (schedule_N : Int) g height width 1
        (ctx.noise i).1 (ctx.noise i).2.1 (ctx.noise i).2.2 with
    | none => none
    | some pr =>
      let st2 := ctx.schedStep pr.1 tcur st
      let evs : List (Nat × Int × Lat) :=
        if fireAt total numWarmup ctx.order k ctx.hasCallback i then [(i, tcur, st2)] else []
      match loopGo ctx mode prompt_embeds img_vae img_clip g height width total
          numWarmup k ts (i + 1) st2 with
      | none => none
      | some tr => some ⟨tr.latents, pr.2 ++ tr.calls, evs ++ tr.events, tr.stepCount + 1⟩

/-- Result of one _denoising_sample_fn run, by mode: all three sub-latents
for joint, the image pair for t2i and i, the text latent for i2t and t. -/
inductive SampleOut where
  | jointOut (iv : T4) (ic : T3) (tl : T3)
  | imgOut (iv : T4) (ic : T3)
  | txtOut (tl : T3)
deriving DecidableEq

/-- UniDiffuserPipeline._denoising_sample_fn, instrumented with the loop
trace: pack the initial sub-latents by mode, run the scheduler loop over
the timestep schedule, unpack the final latent by mode. -/
def _denoising_sample_fn (ctx : DenoCtx) (mode : Mode)
    (image_vae_latents : T4) (image_clip_latents : T3) (prompt_embeds : T3)
    (num_inference_steps : Nat) (guidance_scale : ℚ) (height width : Nat)
    (callback_steps : Nat) : Option (SampleOut × LoopTrace) :=
  let latents0 : Option Lat :=
    match mode with
    | Mode.joint =>
      some (Lat.flat (_combine_joint image_vae_latents image_clip_latents prompt_embeds))
    | Mode.t2i => some (Lat.flat (_combine image_vae_latents image_clip_latents))
    | Mode.i => some (Lat.flat (_combine image_vae_latents image_clip_latents))
    | Mode.i2t => some (Lat.txt prompt_embeds)
    | Mode.t => some (Lat.txt prompt_embeds)
    | _ => none
  match latents0 with
  | none => none
  | some l0 =>
    let timesteps := ctx.set_timesteps num_inference_steps
    match loopGo ctx mode prompt_embeds image_vae_latents image_clip_latents
        guidance_scale height width timesteps.length
        (numWarmup timesteps.length num_inference_steps ctx.order) callback_steps
        timesteps 0 l0 with
    | none => none
    | some tr =>
      match mode, tr.latents with
      | Mode.joint, Lat.flat x =>
        some (SampleOut.jointOut (_split_joint ctx.cfg x height width).1
          (_split_joint ctx.cfg x height width).2.1
          (_split_joint ctx.cfg x height width).2.2, tr)
      | Mode.t2i, Lat.flat x =>
        some (SampleOut.imgOut (_split ctx.cfg x height width).1
          (_split ctx.cfg x height width).2, tr)
      | Mode.i, Lat.flat x =>
        some (SampleOut.imgOut (_split ctx.cfg x height width).1
          (_split ctx.cfg x height width).2, tr)
      | Mode.i2t, Lat.txt x => some (SampleOut.txtOut x, tr)
      | Mode.t, Lat.txt x => some (SampleOut.txtOut x, tr)
      | _, _ => none

theorem gnp_spec (cfg : PipelineConfig) (unet : UNetCall → UNetOut) (mode : Mode)
    (st : Lat) (t : Int) (pe : T3) (iv : T4) (ic : T3) (N : Int) (g : ℚ)
    (h w : Nat) (dt : Int) (n1 : T4) (n2 : T3) (n3 : T3)
    (hok : ModeKindOk mode st) :
    ∃ pr, get_noise_pred cfg unet mode st t pe iv ic N g h w dt n1 n2 n3 = some pr ∧
      pr.2.length = callsPerStep mode g := by
  cases mode <;> cases st <;>
    simp [ModeKindOk, modeLatKind, latKind] at hok ⊢ <;>
    by_cases hg : g = 0 <;>
    simp [get_noise_pred, callsPerStep, hg] <;>
    exact ⟨_, _, ⟨rfl, rfl⟩, by simp⟩


theorem loopGo_spec (ctx : DenoCtx) (mode : Mode) (pe : T3) (iv : T4) (ic : T3)
    (g : ℚ) (h w : Nat) (total : Nat) (warm : Int) (k : Nat)
    (hstep : ∀ n t x, latKind (ctx.schedStep n t x) = latKind x) :
    ∀ (ts : List Int) (i : Nat) (st : Lat), ModeKindOk mode st →
      ∃ tr, loopGo ctx mode pe iv ic g h w total warm k ts i st = some tr ∧
        tr.calls.length = callsPerStep mode g * ts.length ∧
        tr.stepCount = ts.length ∧
        ModeKindOk mode tr.latents ∧
        tr.events.map (fun e => (e.1, e.2.1)) =
          ((List.range' i ts.length).zip ts).filter
            (fun p => fireAt total warm ctx.order k ctx.hasCallback p.1) := by
  intro ts
  induction ts with
  | nil =>
    intro i st hok
    exact ⟨⟨st, [], [], 0⟩, rfl, by simp, rfl, hok, by simp⟩
  | cons tcur ts ih =>
    intro i st hok
    obtain ⟨pr, hpr, hprlen⟩ := gnp_spec ctx.cfg ctx.unet mode st tcur pe iv ic
      (schedule_N : Int) g h w 1 (ctx.noise i).1 (ctx.noise i).2.1 (ctx.noise i).2.2 hok
    have hok2 : ModeKindOk mode (ctx.schedStep pr.1 tcur st) := by
      unfold ModeKindOk at hok ⊢
      rw [hstep pr.1 tcur st]
      exact hok
    obtain ⟨tr, htr, hcalls, hsteps, hkind, hevents⟩ :=
      ih (i + 1) (ctx.schedStep pr.1 tcur st) hok2
    refine ⟨⟨tr.latents, pr.2 ++ tr.calls,
      (if fireAt total warm ctx.order k ctx.hasCallback i
        then [(i, tcur, ctx.schedStep pr.1 tcur st)] else []) ++ tr.events,
      tr.stepCount + 1⟩, ?_, ?_, ?_, ?_, ?_⟩
    · simp only [loopGo, hpr, htr]
    · simp only [List.length_append, hprlen, hcalls, List.length_cons]
      ring
    · simp [hsteps]
    · exact hkind
    · rw [List.map_append, hevents]
      simp only [List.length_cons]
      rw [List.range'_succ, List.zip_cons_cons, List.filter_cons]
      by_cases hf : fireAt total warm ctx.order k ctx.hasCallback i
      · simp [hf]
      · simp [hf]


theorem dsf_trace (ctx : DenoCtx) (mode : Mode) (iv : T4) (ic : T3) (pe : T3)
    (S : Nat) (g : ℚ) (h w k : Nat)
    (hstep : ∀ n t x, latKind (ctx.schedStep n t x) = latKind x)
    (hm : mode = Mode.joint ∨ mode = Mode.t2i ∨ mode = Mode.i2t ∨
      mode = Mode.t ∨ mode = Mode.i) :
    ∃ out tr, _denoising_sample_fn ctx mode iv ic pe S g h w k = some (out, tr) ∧
      tr.calls.length = callsPerStep mode g * (ctx.set_timesteps S).length ∧
      tr.stepCount = (ctx.set_timesteps S).length ∧
      tr.events.map (fun e => (e.1, e.2.1)) =
        ((List.range' 0 (ctx.set_timesteps S).length).zip (ctx.set_timesteps S)).filter
          (fun p => fireAt (ctx.set_timesteps S).length
            (numWarmup (ctx.set_timesteps S).length S ctx.order) ctx.order k
            ctx.hasCallback p.1) := by
  rcases hm with rfl | rfl | rfl | rfl | rfl
  · obtain ⟨tr, htr, hcalls, hsteps, hkind, hevents⟩ :=
      loopGo_spec ctx Mode.joint pe iv ic g h w (ctx.set_timesteps S).length
        (numWarmup (ctx.set_timesteps S).length S ctx.order) k hstep
        (ctx.set_timesteps S) 0 (Lat.flat (_combine_joint iv ic pe)) rfl
    obtain ⟨lat, cs, evs, sc⟩ := tr
    cases lat with
    | txt x => exact absurd hkind (by simp [ModeKindOk, modeLatKind, latKind])
    | flat x =>
      refine ⟨SampleOut.jointOut (_split_joint ctx.cfg x h w).1
        (_split_joint ctx.cfg x h w).2.1 (_split_joint ctx.cfg x h w).2.2,
        ⟨Lat.flat x, cs, evs, sc⟩, ?_, hcalls, hsteps, hevents⟩
      simp only [_denoising_sample_fn]
      rw [htr]
  · obtain ⟨tr, htr, hcalls, hsteps, hkind, hevents⟩ :=
      loopGo_spec ctx Mode.t2i pe iv ic g h w (ctx.set_timesteps S).length
        (numWarmup (ctx.set_timesteps S).length S ctx.order) k hstep
        (ctx.set_timesteps S) 0 (Lat.flat (_combine iv ic)) rfl
    obtain ⟨lat, cs, evs, sc⟩ := tr
    cases lat with
    | txt x => exact absurd hkind (by simp [ModeKindOk, modeLatKind, latKind])
    | flat x =>
      refine ⟨SampleOut.imgOut (_split ctx.cfg x h w).1 (_split ctx.cfg x h w).2,
        ⟨Lat.flat x, cs, evs, sc⟩, ?_, hcalls, hsteps, hevents⟩
      simp only [_denoising_sample_fn]
      rw [htr]
  · obtain ⟨tr, htr, hcalls, hsteps, hkind, hevents⟩ :=
      loopGo_spec ctx Mode.i2t pe iv ic g h w (ctx.set_timesteps S).length
        (numWarmup (ctx.set_timesteps S).length S ctx.order) k hstep
        (ctx.set_timesteps S) 0 (Lat.txt pe) rfl
    obtain ⟨lat, cs, evs, sc⟩ := tr
    cases lat with
    | flat x => exact absurd hkind (by simp [ModeKindOk, modeLatKind, latKind])
    | txt x =>
      refine ⟨SampleOut.txtOut x, ⟨Lat.txt x, cs, evs, sc⟩, ?_, hcalls, hsteps, hevents⟩
      simp only [_denoising_sample_fn]
      rw [htr]
  · obtain ⟨tr, htr, hcalls, hsteps, hkind, hevents⟩ :=
      loopGo_spec ctx Mode.t pe iv ic g h w (ctx.set_timesteps S).length
        (numWarmup (ctx.set_timesteps S).length S ctx.order) k hstep
        (ctx.set_timesteps S) 0 (Lat.txt pe) rfl
    obtain ⟨lat, cs, evs, sc⟩ := tr
    cases lat with
    | flat x => exact absurd hkind (by simp [ModeKindOk, modeLatKind, latKind])
    | txt x =>
      refine ⟨SampleOut.txtOut x, ⟨Lat.txt x, cs, evs, sc⟩, ?_, hcalls, hsteps, hevents⟩
      simp only [_denoising_sample_fn]
      rw [htr]
  · obtain ⟨tr, htr, hcalls, hsteps, hkind, hevents⟩ :=
      loopGo_spec ctx Mode.i pe iv ic g h w (ctx.set_timesteps S).length
        (numWarmup (ctx.set_timesteps S).length S ctx.order) k hstep
        (ctx.set_timesteps S) 0 (Lat.flat (_combine iv ic)) rfl
    obtain ⟨lat, cs, evs, sc⟩ := tr
    cases lat with
    | txt x => exact absurd hkind (by simp [ModeKindOk, modeLatKind, latKind])
    | flat x =>
      refine ⟨SampleOut.imgOut (_split ctx.cfg x h w).1 (_split ctx.cfg x h w).2,
        ⟨Lat.flat x, cs, evs, sc⟩, ?_, hcalls, hsteps, hevents⟩
      simp only [_denoising_sample_fn]
      rw [htr]

/-- Concrete loop context for witnesses and counterexamples: scheduler
schedule of constant timestep 7 with length equal to the requested step
count, identity scheduler step (kind preserving), order 1, constant
noise oracle and a supplied callback. -/
def ctxW : DenoCtx :=
  ⟨cfgW, unetW, fun S => List.replicate S 7, fun _ _ x => x, 1,
    fun _ => (nvW, ncW, ntW), true⟩

/-- Counterexample to C5 as stated: in joint mode with guidance scale 1 and
S = 1 inference step, the denoising loop makes 3 network calls (one
conditioned, two unconditioned), not the claimed 2S = 2. -/
theorem loop_call_count_cex :
    (_denoising_sample_fn ctxW Mode.joint vW cW txW 1 1 2 2 1).map
      (fun o => o.2.calls.length) = some 3 ∧ (3 : Nat) ≠ 2 * 1 := by
  constructor
  · rfl
  · decide

/-- C5 (amended): one run of the denoising loop calls the scheduler step
function exactly S times, and calls the denoising network exactly
callsPerStep(mode, g) * S times, where callsPerStep is S-independent: 1
when guidance is 0 for every mode, and for positive guidance 2 for t2i
and i2t, 3 for joint, and 1 for the unconditional modes t and i.  The
claimed count 2S for positive guidance holds only for t2i and i2t.
Assumes the scheduler schedule has length S and the scheduler step
preserves the latent kind. -/
theorem loop_call_counts (ctx : DenoCtx) (mode : Mode) (iv : T4) (ic : T3) (pe : T3)
    (S : Nat) (g : ℚ) (h w k : Nat)
    (hstep : ∀ n t x, latKind (ctx.schedStep n t x) = latKind x)
    (hts : (ctx.set_timesteps S).length = S)
    (hm : mode = Mode.joint ∨ mode = Mode.t2i ∨ mode = Mode.i2t ∨
      mode = Mode.t ∨ mode = Mode.i) :
    (_denoising_sample_fn ctx mode iv ic pe S g h w k).map
      (fun o => (o.2.calls.length, o.2.stepCount)) =
      some (callsPerStep mode g * S, S) := by
  obtain ⟨out, tr, hd, hcalls, hsteps, _⟩ := dsf_trace ctx mode iv ic pe S g h w k hstep hm
  rw [hd]
  simp only [Option.map_some']
  rw [hcalls, hsteps, hts]

/-- Witness for C5 (amended): t2i mode, guidance 1, S = 2 steps under the
concrete context makes 2 * 2 = 4 network calls and 2 scheduler steps. -/
theorem loop_call_counts_witness :
    ((ctxW.set_timesteps 2).length = 2 ∧
      (Mode.t2i = Mode.joint ∨ Mode.t2i = Mode.t2i ∨ Mode.t2i = Mode.i2t ∨
        Mode.t2i = Mode.t ∨ Mode.t2i = Mode.i)) ∧
    (_denoising_sample_fn ctxW Mode.t2i vW cW txW 2 1 2 2 1).map
      (fun o => (o.2.calls.length, o.2.stepCount)) =
      some (callsPerStep Mode.t2i 1 * 2, 2) :=
  ⟨⟨by decide, Or.inr (Or.inl rfl)⟩,
    loop_call_counts ctxW Mode.t2i vW cW txW 2 1 2 2 1
      (fun n t x => rfl) (by decide) (Or.inr (Or.inl rfl))⟩

/-- Counterexample to C6 as stated: with S = 2 steps, callback interval
k = 2 and scheduler order 1, the callback fires exactly at iteration 0
(because the source condition is i mod k = 0, not i mod k = k - 1) and
does not fire at the final iteration 1, although the claim says it fires
at k - 1 = 1 and always on the final iteration. -/
theorem callback_schedule_cex :
    (_denoising_sample_fn ctxW Mode.t vW cW txW 2 1 2 2 2).map
      (fun o => o.2.events.map (fun e => e.1)) = some [0] ∧
    (1 : Nat) ∉ ([0] : List Nat) := by
  constructor
  · rfl
  · decide

/-- C6 (amended): the callback fires exactly at the iterations i < S with
i mod k = 0 that also satisfy the progress-display condition (final
iteration, or i + 1 past the warmup count and divisible by the
scheduler order) — for an order-1 scheduler these are 0, k, 2k, …; in
particular the final iteration fires only when S - 1 is a multiple of
k.  It never fires more than S times, and each event carries the
iteration index, the scheduled timestep of that iteration and the
post-update latent.  Assumes a schedule of length S and a
kind-preserving scheduler step. -/
theorem callback_schedule (ctx : DenoCtx) (mode : Mode) (iv : T4) (ic : T3) (pe : T3)
    (S : Nat) (g : ℚ) (h w k : Nat)
    (hstep : ∀ n t x, latKind (ctx.schedStep n t x) = latKind x)
    (hts : (ctx.set_timesteps S).length = S)
    (hm : mode = Mode.joint ∨ mode = Mode.t2i ∨ mode = Mode.i2t ∨
      mode = Mode.t ∨ mode = Mode.i) :
    (_denoising_sample_fn ctx mode iv ic pe S g h w k).map
      (fun o => o.2.events.map (fun e => (e.1, e.2.1))) =
      some (((List.range' 0 S).zip (ctx.set_timesteps S)).filter
        (fun p => fireAt S (numWarmup S S ctx.order) ctx.order k ctx.hasCallback p.1)) ∧
    ∀ o, _denoising_sample_fn ctx mode iv ic pe S g h w k = some o →
      o.2.events.length ≤ S := by
  obtain ⟨out, tr, hd, _, _, hevents⟩ := dsf_trace ctx mode iv ic pe S g h w k hstep hm
  rw [hts] at hevents
  constructor
  · rw [hd]
    simp only [Option.map_some']
    rw [hevents]
  · intro o ho
    rw [hd] at ho
    obtain rfl := Option.some.inj ho
    have h1 : tr.events.length = (tr.events.map (fun e => (e.1, e.2.1))).length := by
      simp
    rw [show ((out, tr) : SampleOut × LoopTrace).2 = tr from rfl, h1, hevents]
    have h2 := List.length_filter_le
      (fun p => fireAt S (numWarmup S S ctx.order) ctx.order k ctx.hasCallback p.1)
      ((List.range' 0 S).zip (ctx.set_timesteps S))
    have h3 : ((List.range' 0 S).zip (ctx.set_timesteps S)).length ≤ S := by
      rw [List.length_zip]
      simp [List.length_range']
    omega

/-- Witness for C6 (amended): mode t, S = 2, callback interval 2 under the
concrete context; the theorem applied at this input. -/
theorem callback_schedule_witness :
    ((ctxW.set_timesteps 2).length = 2 ∧
      (Mode.t = Mode.joint ∨ Mode.t = Mode.t2i ∨ Mode.t = Mode.i2t ∨
        Mode.t = Mode.t ∨ Mode.t = Mode.i)) ∧
    ((_denoising_sample_fn ctxW Mode.t vW cW txW 2 1 2 2 2).map
      (fun o => o.2.events.map (fun e => (e.1, e.2.1))) =
      some (((List.range' 0 2).zip (ctxW.set_timesteps 2)).filter
        (fun p => fireAt 2 (numWarmup 2 2 ctxW.order) ctxW.order 2 ctxW.hasCallback p.1)) ∧
    ∀ o, _denoising_sample_fn ctxW Mode.t vW cW txW 2 1 2 2 2 = some o →
      o.2.events.length ≤ 2) :=
  ⟨⟨by decide, Or.inr (Or.inr (Or.inr (Or.inl rfl)))⟩,
    callback_schedule ctxW Mode.t vW cW txW 2 1 2 2 2
      (fun n t x => rfl) (by decide) (Or.inr (Or.inr (Or.inr (Or.inl rfl))))⟩

/-- Post-processed result of one UniDiffuserPipeline.__call__ run at the
latent level: the image-VAE latent handed to the decoder (when an image
is generated) and the text latent handed to the caption generator (when
text is generated). -/
structure GenOut where
  gen_image : Option T4
  gen_text : Option T3
deriving DecidableEq

/-- Steps 6 and 7 of UniDiffuserPipeline.__call__: sequence one or two
_denoising_sample_fn runs by mode.  Compound mode t2i2t runs the loop in
t2i mode and then, during post-processing, reruns it in i2t mode on the
produced image latents; i2t2i runs i2t first and then t2i with the
produced text latent in the prompt-embedding slot.  The second stage
uses the continued random stream noise2. -/
def pipelineSequence (ctx : DenoCtx) (noise2 : Nat → T4 × T3 × T3) (mode : Mode)
    (image_vae_latents : T4) (image_clip_latents : T3) (prompt_embeds : T3)
    (S : Nat) (g : ℚ) (height width : Nat) (k : Nat) : Option GenOut :=
  match mode with
  | Mode.i2t2i =>
    match _denoising_sample_fn ctx Mode.i2t image_vae_latents image_clip_latents
        prompt_embeds S g height width k with
    | some (SampleOut.txtOut tl, _) =>
      match _denoising_sample_fn { ctx with noise := noise2 } Mode.t2i
          image_vae_latents image_clip_latents tl S g height width k with
      | some (SampleOut.imgOut iv ic, _) => some ⟨some iv, none⟩
      | _ => none
    | _ => none
  | Mode.t2i2t =>
    match _denoising_sample_fn ctx Mode.t2i image_vae_latents image_clip_latents
        prompt_embeds S g height width k with
    | some (SampleOut.imgOut iv ic, _) =>
      match _denoising_sample_fn { ctx with noise := noise2 } Mode.i2t
          iv ic prompt_embeds S g height width k with
      | some (SampleOut.txtOut tl, _) => some ⟨none, some tl⟩
      | _ => none
    | _ => none
  | _ =>
    match _denoising_sample_fn ctx mode image_vae_latents image_clip_latents
        prompt_embeds S g height width k with
    | none => none
    | some (out, _) =>
      match mode, out with
      | Mode.joint, SampleOut.jointOut iv _ tl => some ⟨some iv, some tl⟩
      | Mode.t2i, SampleOut.imgOut iv _ => some ⟨some iv, none⟩
      | Mode.i, SampleOut.imgOut iv _ => some ⟨some iv, none⟩
      | Mode.i2t, SampleOut.txtOut tl => some ⟨none, some tl⟩
      | Mode.t, SampleOut.txtOut tl => some ⟨none, some tl⟩
      | _, _ => none

theorem dsf_t2i_shape (ctx : DenoCtx) (iv : T4) (ic : T3) (pe : T3)
    (S : Nat) (g : ℚ) (h w k : Nat)
    (hstep : ∀ n t x, latKind (ctx.schedStep n t x) = latKind x) :
    ∃ iv2 ic2 tr, _denoising_sample_fn ctx Mode.t2i iv ic pe S g h w k =
      some (SampleOut.imgOut iv2 ic2, tr) := by
  obtain ⟨tr, htr, _, _, hkind, _⟩ :=
    loopGo_spec ctx Mode.t2i pe iv ic g h w (ctx.set_timesteps S).length
      (numWarmup (ctx.set_timesteps S).length S ctx.order) k hstep
      (ctx.set_timesteps S) 0 (Lat.flat (_combine iv ic)) rfl
  obtain ⟨lat, cs, evs, sc⟩ := tr
  cases lat with
  | txt x => exact absurd hkind (by simp [ModeKindOk, modeLatKind, latKind])
  | flat x =>
    refine ⟨(_split ctx.cfg x h w).1, (_split ctx.cfg x h w).2,
      ⟨Lat.flat x, cs, evs, sc⟩, ?_⟩
    simp only [_denoising_sample_fn]
    rw [htr]

theorem dsf_i2t_shape (ctx : DenoCtx) (iv : T4) (ic : T3) (pe : T3)
    (S : Nat) (g : ℚ) (h w k : Nat)
    (hstep : ∀ n t x, latKind (ctx.schedStep n t x) = latKind x) :
    ∃ tl tr, _denoising_sample_fn ctx Mode.i2t iv ic pe S g h w k =
      some (SampleOut.txtOut tl, tr) := by
  obtain ⟨tr, htr, _, _, hkind, _⟩ :=
    loopGo_spec ctx Mode.i2t pe iv ic g h w (ctx.set_timesteps S).length
      (numWarmup (ctx.set_timesteps S).length S ctx.order) k hstep
      (ctx.set_timesteps S) 0 (Lat.txt pe) rfl
  obtain ⟨lat, cs, evs, sc⟩ := tr
  cases lat with
  | flat x => exact absurd hkind (by simp [ModeKindOk, modeLatKind, latKind])
  | txt x =>
    refine ⟨x, ⟨Lat.txt x, cs, evs, sc⟩, ?_⟩
    simp only [_denoising_sample_fn]
    rw [htr]

/-- C7: with a fixed random stream (stage oracles noise and noise2) and a
deterministic network, a call in compound mode t2i2t produces the same
result as manually running the denoising loop in t2i mode and then
running it in i2t mode conditioned on the image latents produced by the
first stage; symmetrically, i2t2i runs i2t first and then t2i seeded
with the produced text latent (in the prompt-embedding slot) and the
originally prepared image latents.  Assumes a kind-preserving scheduler
step. -/
theorem compound_mode_sequencing (ctx : DenoCtx) (noise2 : Nat → T4 × T3 × T3)
    (iv : T4) (ic : T3) (pe : T3) (S : Nat) (g : ℚ) (h w k : Nat)
    (hstep : ∀ n t x, latKind (ctx.schedStep n t x) = latKind x) :
    (∃ iv2 ic2 tr1 tl tr2,
      _denoising_sample_fn ctx Mode.t2i iv ic pe S g h w k =
        some (SampleOut.imgOut iv2 ic2, tr1) ∧
      _denoising_sample_fn { ctx with noise := noise2 } Mode.i2t iv2 ic2 pe S g h w k =
        some (SampleOut.txtOut tl, tr2) ∧
      pipelineSequence ctx noise2 Mode.t2i2t iv ic pe S g h w k =
        some ⟨none, some tl⟩) ∧
    (∃ tl tr1 iv2 ic2 tr2,
      _denoising_sample_fn ctx Mode.i2t iv ic pe S g h w k =
        some (SampleOut.txtOut tl, tr1) ∧
      _denoising_sample_fn { ctx with noise := noise2 } Mode.t2i iv ic tl S g h w k =
        some (SampleOut.imgOut iv2 ic2, tr2) ∧
      pipelineSequence ctx noise2 Mode.i2t2i iv ic pe S g h w k =
        some ⟨some iv2, none⟩) := by
  constructor
  · obtain ⟨iv2, ic2, tr1, hd1⟩ := dsf_t2i_shape ctx iv ic pe S g h w k hstep
    obtain ⟨tl, tr2, hd2⟩ := dsf_i2t_shape { ctx with noise := noise2 } iv2 ic2 pe
      S g h w k (fun n t x => hstep n t x)
    refine ⟨iv2, ic2, tr1, tl, tr2, hd1, hd2, ?_⟩
    simp only [pipelineSequence, hd1, hd2]
  · obtain ⟨tl, tr1, hd1⟩ := dsf_i2t_shape ctx iv ic pe S g h w k hstep
    obtain ⟨iv2, ic2, tr2, hd2⟩ := dsf_t2i_shape { ctx with noise := noise2 } iv ic tl
      S g h w k (fun n t x => hstep n t x)
    refine ⟨tl, tr1, iv2, ic2, tr2, hd1, hd2, ?_⟩
    simp only [pipelineSequence, hd1, hd2]

/-- Witness for C7: the sequencing theorem applied at the concrete context
with one inference step. -/
theorem compound_mode_sequencing_witness :
    (∃ iv2 ic2 tr1 tl tr2,
      _denoising_sample_fn ctxW Mode.t2i vW cW txW 1 1 2 2 1 =
        some (SampleOut.imgOut iv2 ic2, tr1) ∧
      _denoising_sample_fn { ctxW with noise := fun _ => (vW, cW, txW) } Mode.i2t
          iv2 ic2 txW 1 1 2 2 1 =
        some (SampleOut.txtOut tl, tr2) ∧
      pipelineSequence ctxW (fun _ => (vW, cW, txW)) Mode.t2i2t vW cW txW 1 1 2 2 1 =
        some ⟨none, some tl⟩) ∧
    (∃ tl tr1 iv2 ic2 tr2,
      _denoising_sample_fn ctxW Mode.i2t vW cW txW 1 1 2 2 1 =
        some (SampleOut.txtOut tl, tr1) ∧
      _denoising_sample_fn { ctxW with noise := fun _ => (vW, cW, txW) } Mode.t2i
          vW cW tl 1 1 2 2 1 =
        some (SampleOut.imgOut iv2 ic2, tr2) ∧
      pipelineSequence ctxW (fun _ => (vW, cW, txW)) Mode.i2t2i vW cW txW 1 1 2 2 1 =
        some ⟨some iv2, none⟩) :=
  compound_mode_sequencing ctxW (fun _ => (vW, cW, txW)) vW cW txW 1 1 2 2 1
    (fun n t x => rfl)

/-- Prompt argument of the pipeline entry point: a single string or a list
of strings (the only types check_inputs accepts). -/
inductive Prompt where
  | str (s : String)
  | list (l : List String)
deriving DecidableEq

/-- Validation failures of check_inputs, one per raise site in source
order. -/
inductive CheckError where
  | heightWidth
  | callbackSteps
  | bothPromptAndEmbeds
  | neitherPromptNorEmbeds
  | bothNegative
  | negEmbedsShapeMismatch
deriving DecidableEq

/-- Shape of a rectangular (B, L, D) tensor, read off the nested list. -/
def dims3 (t : T3) : Nat × Nat × Nat :=
  (t.length, (t.headD []).length, ((t.headD []).headD []).length)

/-- UniDiffuserPipeline.check_inputs: raises on height or width not
divisible by the literal 8, a missing or non-positive callback interval,
both or neither of prompt and prompt_embeds, both negative prompt forms,
or mismatched prompt_embeds and negative_prompt_embeds shapes.  Returns
the first error in source order, none on success. -/
def check_inputs (prompt : Option Prompt) (height width : Nat)
    (callback_steps : Option Int) (negative_prompt : Option Prompt)
    (prompt_embeds : Option T3) (negative_prompt_embeds : Option T3) :
    Option CheckError :=
  if height % 8 != 0 || width % 8 != 0 then some CheckError.heightWidth
  else if (match callback_steps with
    | none => true
    | some k => k ≤ 0) then some CheckError.callbackSteps
  else if prompt.isSome && prompt_embeds.isSome then some CheckError.bothPromptAndEmbeds
  else if prompt.isNone && prompt_embeds.isNone then some CheckError.neitherPromptNorEmbeds
  else if negative_prompt.isSome && negative_prompt_embeds.isSome then
    some CheckError.bothNegative
  else
    match prompt_embeds, negative_prompt_embeds with
    | some pe, some npe =>
      if dims3 pe != dims3 npe then some CheckError.negEmbedsShapeMismatch else none
    | _, _ => none

/-- Step 1 of UniDiffuserPipeline.__call__: the call
self.check_inputs(prompt, height, width, callback_steps).  Neither the
mode nor prompt_embeds nor the negative prompt arguments are forwarded,
so check_inputs sees None for all of them in every mode. -/
def call_validate (mode : Mode) (prompt : Option Prompt) (prompt_embeds : Option T3)
    (height width : Nat) (callback_steps : Option Int) : Option CheckError :=
  check_inputs prompt height width callback_steps none none none

/-- C8: evaluation of the embedded validation at the repository's own
example inputs.  examples/inference/image_to_text_generation-unidiffuser.py
calls the pipeline with mode i2t, an image and prompt None, and
check_inputs rejects it with the neither-prompt-nor-embeds error before
any sampling; the same happens in every mode without a prompt, and even
when the caller supplies prompt_embeds, because __call__ does not
forward prompt_embeds to check_inputs. -/
theorem check_inputs_rejects_example :
    call_validate Mode.i2t none none 512 512 (some 1) =
      some CheckError.neitherPromptNorEmbeds ∧
    call_validate Mode.t none none 512 512 (some 1) =
      some CheckError.neitherPromptNorEmbeds ∧
    call_validate Mode.t2i none (some txW) 512 512 (some 1) =
      some CheckError.neitherPromptNorEmbeds := by
  refine ⟨?_, ?_, ?_⟩ <;> rfl

/-- Scalar multiple of a (B, C, H, W) tensor. -/
def smul4 (g : ℚ) (x : T4) : T4 := x.map (smul3 g)

/-- True when a generator list was passed whose length differs from the
requested batch size — the only input the latent-preparation helpers of
UniDiffuserPipeline validate. -/
def genListMismatch (genCount : Option Nat) (batch_size : Nat) : Bool :=
  match genCount with
  | some n => n != batch_size
  | none => false

/-- UniDiffuserPipeline.prepare_text_latents: checks only the generator
list length; a missing override is drawn from the randn oracle; the
result — override or draw — is scaled by the scheduler initial noise
sigma.  No shape check is applied to a supplied override. -/
def prepare_text_latents (batch_size seq_len hidden_size : Nat)
    (genCount : Option Nat) (init_noise_sigma : ℚ) (randn3 : T3)
    (latents : Option T3) : Option T3 :=
  if genListMismatch genCount batch_size then none
  else
    let lat := match latents with
      | none => randn3
      | some l => l
    some (smul3 init_noise_sigma lat)

/-- UniDiffuserPipeline.prepare_image_vae_latents: same structure as
prepare_text_latents; height, width and the channel count shape only the
randn draw (modelled by the oracle), not any check of the override. -/
def prepare_image_vae_latents (cfg : PipelineConfig)
    (batch_size num_channels_latents height width : Nat)
    (genCount : Option Nat) (init_noise_sigma : ℚ) (randn4 : T4)
    (latents : Option T4) : Option T4 :=
  if genListMismatch genCount batch_size then none
  else
    let lat := match latents with
      | none => randn4
      | some l => l
    some (smul4 init_noise_sigma lat)

/-- UniDiffuserPipeline.prepare_image_clip_latents: same structure as
prepare_text_latents for the (batch, 1, clip_img_dim) CLIP latent. -/
def prepare_image_clip_latents (batch_size clip_img_dim : Nat)
    (genCount : Option Nat) (init_noise_sigma : ℚ) (randn3 : T3)
    (latents : Option T3) : Option T3 :=
  if genListMismatch genCount batch_size then none
  else
    let lat := match latents with
      | none => randn3
      | some l => l
    some (smul3 init_noise_sigma lat)

namespace UniDiffuserTextGenerationPipeline

/-- UniDiffuserTextGenerationPipeline.prepare_latents
(pipeline_unidiffuser_t.py): unlike the main pipeline helpers, a
supplied override is compared against the expected
(batch, channels, height/scale, width/scale) shape and a mismatch
raises; the accepted latent is scaled by the initial noise sigma. -/
def prepare_latents (vae_scale_factor batch_size num_channels_latents height width : Nat)
    (genCount : Option Nat) (init_noise_sigma : ℚ) (randn4 : T4)
    (latents : Option T4) : Option T4 :=
  if genListMismatch genCount batch_size then none
  else
    match latents with
    | none => some (smul4 init_noise_sigma randn4)
    | some l =>
      if Shape4 batch_size num_channels_latents (height / vae_scale_factor)
          (width / vae_scale_factor) l
      then some (smul4 init_noise_sigma l)
      else none

end UniDiffuserTextGenerationPipeline

/-- Counterexample to C9 as stated: the main pipeline accepts a
prompt_latents override of shape (1, 1, 1) where (1, 2, 2) is expected —
prepare_text_latents returns it (scaled by sigma = 1) instead of
failing. -/
theorem latent_override_no_shape_check_cex :
    prepare_text_latents 1 2 2 none 1 [] (some [[[5]]]) = some [[[5]]] ∧
    ¬ Shape3 1 2 2 [[[5]]] := by
  constructor
  · norm_num [prepare_text_latents, genListMismatch, smul3, smul2]
  · decide

/-- C9 (amended): only UniDiffuserTextGenerationPipeline.prepare_latents
(pipeline_unidiffuser_t.py) validates the shape of an explicit latent
override, failing at the point of mismatch and scaling an override of
the right shape; the main pipeline helpers prepare_text_latents,
prepare_image_vae_latents and prepare_image_clip_latents accept an
override of any shape and return it scaled by the initial noise
sigma. -/
theorem latent_override_shape_check (vsf B C H W sl hs cd : Nat)
    (gc : Option Nat) (sg : ℚ) (rnd4 : T4) (rnd3 : T3)
    (cfg : PipelineConfig) (l : T4) (l2 : T4) (l3 : T3) (l4 : T4) (l5 : T3)
    (hgen : genListMismatch gc B = false)
    (hbad : ¬ Shape4 B C (H / vsf) (W / vsf) l)
    (hgood : Shape4 B C (H / vsf) (W / vsf) l2) :
    UniDiffuserTextGenerationPipeline.prepare_latents vsf B C H W gc sg rnd4 (some l) =
      none ∧
    UniDiffuserTextGenerationPipeline.prepare_latents vsf B C H W gc sg rnd4 (some l2) =
      some (smul4 sg l2) ∧
    prepare_text_latents B sl hs gc sg rnd3 (some l3) = some (smul3 sg l3) ∧
    prepare_image_vae_latents cfg B C H W gc sg rnd4 (some l4) = some (smul4 sg l4) ∧
    prepare_image_clip_latents B cd gc sg rnd3 (some l5) = some (smul3 sg l5) := by
  refine ⟨?_, ?_, ?_, ?_, ?_⟩ <;>
    simp [UniDiffuserTextGenerationPipeline.prepare_latents, prepare_text_latents,
      prepare_image_vae_latents, prepare_image_clip_latents, hgen, hbad, hgood]

/-- Witness for C9 (amended): scale factor 2, expected shape (1, 1, 1, 1);
the override [[[[5]]], [[[6]]]] has batch 2 and is rejected by the text
generation pipeline, while [[[[5]]]] is accepted and scaled by 3; the
main pipeline helpers scale any override. -/
theorem latent_override_shape_check_witness :
    (genListMismatch none 1 = false ∧
      ¬ Shape4 1 1 (2 / 2) (2 / 2) [[[[5]]], [[[6]]]] ∧
      Shape4 1 1 (2 / 2) (2 / 2) [[[[5]]]]) ∧
    (UniDiffuserTextGenerationPipeline.prepare_latents 2 1 1 2 2 none 3 nvW
        (some [[[[5]]], [[[6]]]]) = none ∧
    UniDiffuserTextGenerationPipeline.prepare_latents 2 1 1 2 2 none 3 nvW
        (some [[[[5]]]]) = some (smul4 3 [[[[5]]]]) ∧
    prepare_text_latents 1 2 1 none 3 ntW (some txW) = some (smul3 3 txW) ∧
    prepare_image_vae_latents cfgW 1 1 2 2 none 3 nvW (some vW) = some (smul4 3 vW) ∧
    prepare_image_clip_latents 1 2 none 3 ncW (some cW) = some (smul3 3 cW)) :=
  ⟨⟨by decide, by decide, by decide⟩,
    latent_override_shape_check 2 1 1 2 2 2 1 2 none 3 nvW ntW cfgW
      [[[[5]]], [[[6]]]] [[[[5]]]] txW vW cW (by decide) (by decide) (by decide)⟩

/-- C10: every latent-preparation helper of the main pipeline multiplies
the returned latent by the scheduler initial noise sigma
unconditionally: a freshly drawn latent is returned scaled, and an
explicit caller override is returned scaled as well, not unchanged. -/
theorem prepare_latents_always_scales (B sl hs C H W cd : Nat)
    (gc : Option Nat) (sg : ℚ) (rnd4 : T4) (rnd3 rnd3c : T3)
    (cfg : PipelineConfig) (l3 : T3) (l4 : T4) (l5 : T3)
    (hgen : genListMismatch gc B = false) :
    prepare_text_latents B sl hs gc sg rnd3 (some l3) = some (smul3 sg l3) ∧
    prepare_image_vae_latents cfg B C H W gc sg rnd4 (some l4) = some (smul4 sg l4) ∧
    prepare_image_clip_latents B cd gc sg rnd3c (some l5) = some (smul3 sg l5) ∧
    prepare_text_latents B sl hs gc sg rnd3 none = some (smul3 sg rnd3) ∧
    prepare_image_vae_latents cfg B C H W gc sg rnd4 none = some (smul4 sg rnd4) ∧
    prepare_image_clip_latents B cd gc sg rnd3c none = some (smul3 sg rnd3c) := by
  refine ⟨?_, ?_, ?_, ?_, ?_, ?_⟩ <;>
    simp [prepare_text_latents, prepare_image_vae_latents,
      prepare_image_clip_latents, hgen]

/-- Witness for C10: sigma 3 and concrete small latents; overrides and
fresh draws are all returned multiplied by 3. -/
theorem prepare_latents_always_scales_witness :
    genListMismatch (some 1) 1 = false ∧
    (prepare_text_latents 1 2 1 (some 1) 3 ntW (some txW) = some (smul3 3 txW) ∧
    prepare_image_vae_latents cfgW 1 1 2 2 (some 1) 3 nvW (some vW) = some (smul4 3 vW) ∧
    prepare_image_clip_latents 1 2 (some 1) 3 ncW (some cW) = some (smul3 3 cW) ∧
    prepare_text_latents 1 2 1 (some 1) 3 ntW none = some (smul3 3 ntW) ∧
    prepare_image_vae_latents cfgW 1 1 2 2 (some 1) 3 nvW none = some (smul4 3 nvW) ∧
    prepare_image_clip_latents 1 2 (some 1) 3 ncW none = some (smul3 3 ncW)) :=
  ⟨by decide,
    prepare_latents_always_scales 1 2 1 1 2 2 2 (some 1) 3 nvW ntW ncW cfgW
      txW vW cW (by decide)⟩

end UniDiffuser
